import Mathlib

/-!
Verification of the deep-compute/log configuration-driven handler builder.

The development shallowly embeds the two Go source files (log.go,
handlers.go).  Dynamically typed Go values (interface values) are the
inductive type GoVal; a handler configuration ([]interface.values) is the
list type HandlerConf, defined mutually with GoVal because a configuration
may contain nested configurations.  External collaborators (the log15
library codecs and sinks, the redis client, the file system) are modelled
by an explicit environment of oracles, so that build-time behaviour of the
repository code is a pure function of the configuration and the
environment.  A failed unchecked Go type assertion is modelled as an
explicit panicked outcome, distinct from an error return.
-/

namespace DCLog

mutual
/-- A dynamically typed Go value as it can appear inside a handler
configuration: a string, an int, a nested HandlerConf, or any other value
(tagged opaquely).  Type assertions in the source are modelled as matches
on this type. -/
inductive GoVal where
  | str (s : String)
  | int (n : Int)
  | conf (c : HandlerConf)
  | other (tag : Nat)

/-- type HandlerConf []interface: an ordered sequence of dynamically typed
values.  Defined as a bespoke list type, mutually with GoVal, so that
structural recursion over nested configurations is available. -/
inductive HandlerConf where
  | nil
  | cons (v : GoVal) (rest : HandlerConf)
end

/-- Convert an ordinary Lean list of values into a HandlerConf; used only
to write configurations legibly in statements. -/
def HandlerConf.ofList : List GoVal → HandlerConf
  | [] => .nil
  | v :: rest => .cons v (HandlerConf.ofList rest)

/-- Number of elements of a configuration (len in Go). -/
def HandlerConf.length : HandlerConf → Nat
  | .nil => 0
  | .cons _ rest => 1 + HandlerConf.length rest

mutual
/-- Structural equality of dynamic values (Go interface equality on the
modelled universe). -/
def GoVal.beq : GoVal → GoVal → Bool
  | .str a, .str b => a == b
  | .int a, .int b => a == b
  | .conf a, .conf b => HandlerConf.beq a b
  | .other a, .other b => a == b
  | _, _ => false

/-- Structural equality of configurations. -/
def HandlerConf.beq : HandlerConf → HandlerConf → Bool
  | .nil, .nil => true
  | .cons a as, .cons b bs => GoVal.beq a b && HandlerConf.beq as bs
  | _, _ => false
end

/-- The error universe: BadConf is the single generic configuration error
of the repository (var BadConf = errors.New("Bad configuration")); every
other error reaching the builder comes from an external collaborator and
is modelled as an external error tagged with its source. -/
inductive Err where
  | badConf
  | external (source msg : String)

/-- var BadConf error = errors.New("Bad configuration"). -/
def BadConf : Err := Err.badConf

/-- The four fixed output encodings produced by MakeFormatter.  jsonPretty
stands for log15.JsonFormatEx(true, true), the indented colorized JSON
encoding; the codecs themselves are external and out of scope. -/
inductive Format where
  | json
  | jsonPretty
  | logfmt
  | terminal

/-- MakeFormatter from handlers.go: the input must be a string naming one
of the four known encodings, anything else yields BadConf.  It is a pure
mapping with no side effects. -/
def MakeFormatter (format : GoVal) : Except Err Format :=
  match format with
  | .str format_name =>
    match format_name with
    | "json" => .ok Format.json
    | "json_pretty" => .ok Format.jsonPretty
    | "logfmt" => .ok Format.logfmt
    | "terminal" => .ok Format.terminal
    | _ => .error BadConf
  | _ => .error BadConf

/-- The severity scale of log15 (LvlCrit = 0 through LvlDebug = 4). -/
inductive Lvl where
  | crit
  | error
  | warn
  | info
  | debug

/-- The numeric value of a level as in log15 (crit lowest, debug highest). -/
def Lvl.toNat : Lvl → Nat
  | .crit => 0
  | .error => 1
  | .warn => 2
  | .info => 3
  | .debug => 4

/-- Model of log15.LvlFromString (external collaborator): parses the five
level names, with the historical aliases dbug and eror, and fails on any
other string with its own distinct error value. -/
def lvlFromString : String → Except Err Lvl
  | "debug" => .ok Lvl.debug
  | "dbug" => .ok Lvl.debug
  | "info" => .ok Lvl.info
  | "warn" => .ok Lvl.warn
  | "error" => .ok Lvl.error
  | "eror" => .ok Lvl.error
  | "crit" => .ok Lvl.crit
  | s => .error (Err.external "log15" ("Unknown level: " ++ s))

/-- A log record as passed to Handler.Log: severity, message, and context
key/value pairs (the log15 Record, reduced to the fields the repository
code can observe). -/
structure Record where
  lvl : Lvl
  msg : String
  ctx : List (String × GoVal)

/-- The output destinations a sink can write to.  stdout and stderr are
the two standard streams selected by the stream case of MakeHandler. -/
inductive Writer where
  | stdout
  | stderr
  | fileW (path : String)
  | netW (network address : String)
  | syslogW (tag : String)
  | syslogNetW (network address tag : String)

/-- A live redis connection as returned by redis.Dial("tcp", loc). -/
structure RConn where
  loc : String

/-- An observable side effect of logging one record. -/
inductive Output where
  | writeOut (w : Writer) (bytes : String)
  | publishOut (channel : String) (bytes : String)

/-- The external world: every collaborator the two source files call into
(file system, network dialers, the syslog daemon, the redis client, the
log15 codecs, fmt.Sprintf).  Build-time and log-time behaviour of the
repository code is a pure function of the configuration and this
environment.  An oracle returning none means the operation succeeds. -/
structure Env where
  fileOpen : String → Option Err
  netDial : String → String → Option Err
  syslogOpen : String → Option Err
  syslogNetOpen : String → String → String → Option Err
  redisDial : String → Option Err
  fmtBytes : Format → Record → String
  writeB : Writer → String → Option Err
  publish : RConn → String → String → Option Err
  sprintf : String → List GoVal → String
  caller : String

/-- The environment in which every external acquisition and write
succeeds; codecs and fmt.Sprintf return fixed strings.  Used to state
build-time claims that the §3 invariant makes about the builder alone. -/
def okEnv : Env where
  fileOpen := fun _ => none
  netDial := fun _ _ => none
  syslogOpen := fun _ => none
  syslogNetOpen := fun _ _ _ => none
  redisDial := fun _ => none
  fmtBytes := fun _ _ => "bytes"
  writeB := fun _ _ => none
  publish := fun _ _ _ => none
  sprintf := fun f _ => f
  caller := "caller"

/-- The redis sink of handlers.go: the dial target, the channel, and the
two fields set by Init (none models the Go zero value nil). -/
structure RedisHandler where
  Loc : String
  Channel : String
  conn : Option RConn
  formatter : Option Format

/-- RedisHandler.Init: unconditionally installs the compact JSON
formatter, then dials the target over tcp; returns the mutated receiver
and the dial error (nil on success).  The formatter is set even when the
dial fails, exactly as in the source. -/
def RedisHandler.Init (env : Env) (p : RedisHandler) : RedisHandler × Option Err :=
  let p1 : RedisHandler := { p with formatter := some Format.json }
  match env.redisDial p1.Loc with
  | none => ({ p1 with conn := some { loc := p1.Loc } }, none)
  | some e => ({ p1 with conn := none }, some e)

mutual
/-- The runnable handler objects the builder instantiates: one constructor
per log15 combinator or sink used by handlers.go, plus the repository
redis sink.  The children of failover live in OHList because the Go slice
passed to log15.FailoverHandler can contain nil interface values. -/
inductive Handler where
  | buffered (bufSize : Int) (h : Handler)
  | callerFile (h : Handler)
  | callerFunc (h : Handler)
  | callerStack (format : String) (h : Handler)
  | discard
  | failover (hs : OHList)
  | file (path : String) (fmtr : Format)
  | lazy (h : Handler)
  | lvlFilter (maxLvl : Lvl) (h : Handler)
  | matchFilter (key : String) (value : GoVal) (h : Handler)
  | multi (hs : HList)
  | net (network address : String) (fmtr : Format)
  | stream (w : Writer) (fmtr : Format)
  | sync (h : Handler)
  | syslog (tag : String) (fmtr : Format)
  | syslogNet (network address tag : String) (fmtr : Format)
  | redisSink (r : RedisHandler)

/-- A list of handlers ([]log15.Handler with no nil entries). -/
inductive HList where
  | nil
  | cons (h : Handler) (rest : HList)

/-- A list of possibly-nil handlers ([]log15.Handler as Go has it:
consNone is a nil interface entry). -/
inductive OHList where
  | nil
  | consNone (rest : OHList)
  | consSome (h : Handler) (rest : OHList)
end

/-- The slice make([]log15.Handler, n): n nil entries. -/
def OHList.replicateNone : Nat → OHList
  | 0 => .nil
  | n + 1 => .consNone (OHList.replicateNone n)

/-- Concatenation of possibly-nil handler slices (Go append). -/
def OHList.append : OHList → OHList → OHList
  | .nil, ys => ys
  | .consNone xs, ys => .consNone (OHList.append xs ys)
  | .consSome h xs, ys => .consSome h (OHList.append xs ys)

/-- View a nil-free handler list as a possibly-nil one. -/
def HList.toOptList : HList → OHList
  | .nil => .nil
  | .cons h rest => .consSome h (HList.toOptList rest)

/-- The outcome of one call to MakeHandler: a built handler with nil
error, a nil handler with an error, or a run-time panic from a failed
unchecked type assertion. -/
inductive BuildResult where
  | ok (h : Handler)
  | err (e : Err)
  | panicked

/-- The outcome of building the variadic argument list of multi or
failover. -/
inductive ListResult where
  | ok (hs : HList)
  | err (e : Err)
  | panicked

/-- The loops of the multi and failover cases: for each variadic element,
an unchecked downcast args[i].(HandlerConf) (panic on a non-configuration
value), then a recursive build (mh, the reference to MakeHandler) whose
error aborts the whole loop. -/
def MakeHandlerLoop (mh : HandlerConf → BuildResult) : HandlerConf → ListResult
  | .nil => .ok .nil
  | .cons a rest =>
    match a with
    | .conf hdata =>
      match mh hdata with
      | .ok h =>
        match MakeHandlerLoop mh rest with
        | .ok hs => .ok (.cons h hs)
        | .err e => .err e
        | .panicked => .panicked
      | .err e => .err e
      | .panicked => .panicked
    | _ => .panicked

/-- The stream-name switch of the stream case: stdout selects standard
output, stderr and the empty string both select standard error, anything
else is rejected (none, leading to the configuration error). -/
def streamWriter : String → Option Writer
  | "stdout" => some Writer.stdout
  | "stderr" => some Writer.stderr
  | "" => some Writer.stderr
  | _ => none

/-- The body of MakeHandler from handlers.go, with mh standing for the
recursive call on nested configurations: dispatch on the kind string and
build the corresponding log15 object, validating argument count and types
with checked downcasts.  The first element is read with an UNCHECKED type
assertion (conf[0].(string)), so a non-string first element panics; the
same holds for the variadic elements of multi and failover
(args[i].(HandlerConf)).  External constructors (file, net, syslog,
syslog_net, redis) consult the environment and surface its error
unchanged.  The recursion is tied below by MakeHandler. -/
def MakeHandlerBody (env : Env) (mh : HandlerConf → BuildResult) :
    HandlerConf → BuildResult
  | .nil => .err BadConf
  | .cons c0 args =>
    match c0 with
    | .str name =>
      match name with
      | "buffered" =>
        match args with
        | .cons a0 (.cons a1 .nil) =>
          match a0 with
          | .int bufSize =>
            match a1 with
            | .conf hdata =>
              match mh hdata with
              | .ok h => .ok (.buffered bufSize h)
              | .err e => .err e
              | .panicked => .panicked
            | _ => .err BadConf
          | _ => .err BadConf
        | _ => .err BadConf
      | "caller_file" =>
        match args with
        | .cons a0 .nil =>
          match a0 with
          | .conf hdata =>
            match mh hdata with
            | .ok h => .ok (.callerFile h)
            | .err e => .err e
            | .panicked => .panicked
          | _ => .err BadConf
        | _ => .err BadConf
      | "caller_func" =>
        match args with
        | .cons a0 .nil =>
          match a0 with
          | .conf hdata =>
            match mh hdata with
            | .ok h => .ok (.callerFunc h)
            | .err e => .err e
            | .panicked => .panicked
          | _ => .err BadConf
        | _ => .err BadConf
      | "caller_stack" =>
        match args with
        | .cons a0 (.cons a1 .nil) =>
          match a0 with
          | .str format =>
            match a1 with
            | .conf hdata =>
              match mh hdata with
              | .ok h => .ok (.callerStack format h)
              | .err e => .err e
              | .panicked => .panicked
            | _ => .err BadConf
          | _ => .err BadConf
        | _ => .err BadConf
      | "discard" =>
        match args with
        | .nil => .ok .discard
        | _ => .err BadConf
      | "failover" =>
        match MakeHandlerLoop mh args with
        | .ok hs =>
          .ok (.failover (OHList.append
            (OHList.replicateNone (HandlerConf.length args)) (HList.toOptList hs)))
        | .err e => .err e
        | .panicked => .panicked
      | "file" =>
        match args with
        | .cons a0 (.cons a1 .nil) =>
          match a0 with
          | .str path =>
            match MakeFormatter a1 with
            | .ok formatter =>
              match env.fileOpen path with
              | none => .ok (.file path formatter)
              | some e => .err e
            | .error e => .err e
          | _ => .err BadConf
        | _ => .err BadConf
      | "lazy" =>
        match args with
        | .cons a0 .nil =>
          match a0 with
          | .conf hdata =>
            match mh hdata with
            | .ok h => .ok (.lazy h)
            | .err e => .err e
            | .panicked => .panicked
          | _ => .err BadConf
        | _ => .err BadConf
      | "level_filter" =>
        match args with
        | .cons a0 (.cons a1 .nil) =>
          match a0 with
          | .str lvlString =>
            match lvlFromString lvlString with
            | .ok lvl =>
              match a1 with
              | .conf hdata =>
                match mh hdata with
                | .ok h => .ok (.lvlFilter lvl h)
                | .err e => .err e
                | .panicked => .panicked
              | _ => .err BadConf
            | .error _ => .err BadConf
          | _ => .err BadConf
        | _ => .err BadConf
      | "match_filter" =>
        match args with
        | .cons a0 (.cons a1 (.cons a2 .nil)) =>
          match a0 with
          | .str key =>
            match a2 with
            | .conf hdata =>
              match mh hdata with
              | .ok h => .ok (.matchFilter key a1 h)
              | .err e => .err e
              | .panicked => .panicked
            | _ => .err BadConf
          | _ => .err BadConf
        | _ => .err BadConf
      | "multi" =>
        match MakeHandlerLoop mh args with
        | .ok hs => .ok (.multi hs)
        | .err e => .err e
        | .panicked => .panicked
      | "net" =>
        match args with
        | .cons a0 (.cons a1 (.cons a2 .nil)) =>
          match a0 with
          | .str network =>
            match a1 with
            | .str address =>
              match MakeFormatter a2 with
              | .ok formatter =>
                match env.netDial network address with
                | none => .ok (.net network address formatter)
                | some e => .err e
              | .error e => .err e
            | _ => .err BadConf
          | _ => .err BadConf
        | _ => .err BadConf
      | "stream" =>
        match args with
        | .cons a0 (.cons a1 .nil) =>
          match a0 with
          | .str stream_name =>
            match streamWriter stream_name with
            | some w =>
              match MakeFormatter a1 with
              | .ok formatter => .ok (.stream w formatter)
              | .error e => .err e
            | none => .err BadConf
          | _ => .err BadConf
        | _ => .err BadConf
      | "sync" =>
        match args with
        | .cons a0 .nil =>
          match a0 with
          | .conf hdata =>
            match mh hdata with
            | .ok h => .ok (.sync h)
            | .err e => .err e
            | .panicked => .panicked
          | _ => .err BadConf
        | _ => .err BadConf
      | "syslog" =>
        match args with
        | .cons a0 (.cons a1 .nil) =>
          match a0 with
          | .str tag =>
            match MakeFormatter a1 with
            | .ok formatter =>
              match env.syslogOpen tag with
              | none => .ok (.syslog tag formatter)
              | some e => .err e
            | .error e => .err e
          | _ => .err BadConf
        | _ => .err BadConf
      | "syslog_net" =>
        match args with
        | .cons a0 (.cons a1 (.cons a2 (.cons a3 .nil))) =>
          match a0 with
          | .str network =>
            match a1 with
            | .str address =>
              match a2 with
              | .str tag =>
                match MakeFormatter a3 with
                | .ok formatter =>
                  match env.syslogNetOpen network address tag with
                  | none => .ok (.syslogNet network address tag formatter)
                  | some e => .err e
                | .error e => .err e
              | _ => .err BadConf
            | _ => .err BadConf
          | _ => .err BadConf
        | _ => .err BadConf
      | "redis" =>
        match args with
        | .cons a0 (.cons a1 .nil) =>
          match a0 with
          | .str ip_port =>
            match a1 with
            | .str channel =>
              match RedisHandler.Init env
                  { Loc := ip_port, Channel := channel,
                    conn := none, formatter := none } with
              | (redis_h, none) => .ok (.sync (.redisSink redis_h))
              | (_, some e) => .err e
            | _ => .err BadConf
          | _ => .err BadConf
        | _ => .err BadConf
      | _ => .err BadConf
    | _ => .panicked

mutual
/-- Nesting depth of a dynamic value: the depth of the configuration it
holds, or zero for a scalar. -/
def GoVal.depth : GoVal → Nat
  | .conf c => HandlerConf.depth c
  | _ => 0

/-- Nesting depth of a configuration: one more than the depth of its
deepest element that is itself a configuration; zero for a flat one.
Every nested configuration an evaluation of MakeHandlerBody can recurse
into is strictly shallower than the configuration itself. -/
def HandlerConf.depth : HandlerConf → Nat
  | .nil => 0
  | .cons v rest => max (GoVal.depth v + 1) (HandlerConf.depth rest)
end

/-- Iterated MakeHandlerBody with a step budget.  The budget is a proof
device only: MakeHandler below always supplies more steps than the
configuration depth, and the stabilization lemmas show every sufficient
budget gives the same result, so the zero-budget value is never
observable. -/
def MakeHandlerF (env : Env) : Nat → HandlerConf → BuildResult
  | 0, _ => .panicked
  | n + 1, conf => MakeHandlerBody env (MakeHandlerF env n) conf

/-- MakeHandler from handlers.go: the recursive interpretation of a
handler configuration, obtained by running the body with a sufficient
step budget. -/
def MakeHandler (env : Env) (conf : HandlerConf) : BuildResult :=
  MakeHandlerF env (HandlerConf.depth conf + 1) conf

/-- MakeBasicHandler from handlers.go.  The terminal test
terminal.IsTerminal(os.Stdout.Fd()) is an environment read, passed in as
isTerm. -/
def MakeBasicHandler (env : Env) (isTerm : Bool) (fpath lvl : String)
    (quiet : Bool) : BuildResult :=
  let fileHandlerConf : HandlerConf := .cons (.str "discard") .nil
  let streamHandlerConf : HandlerConf := .cons (.str "discard") .nil
  let fileHandlerConf : HandlerConf :=
    if fpath ≠ "" then
      .cons (.str "file") (.cons (.str fpath) (.cons (.str "json") .nil))
    else fileHandlerConf
  let streamHandlerConf : HandlerConf :=
    if ¬quiet then
      if isTerm then
        .cons (.str "stream") (.cons (.str "stderr") (.cons (.str "terminal") .nil))
      else
        .cons (.str "stream") (.cons (.str "stderr") (.cons (.str "json") .nil))
    else streamHandlerConf
  MakeHandler env (.cons (.str "level_filter") (.cons (.str lvl) (.cons
    (.conf (.cons (.str "caller_file") (.cons
      (.conf (.cons (.str "multi") (.cons (.conf fileHandlerConf) (.cons
        (.conf streamHandlerConf) .nil)))) .nil))) .nil)))

/-- MakeNoopHandler from handlers.go: a single discard sink. -/
def MakeNoopHandler (env : Env) : BuildResult :=
  MakeHandler env (.cons (.str "discard") .nil)

/-- The outcome of logging one record: the error Handler.Log returns
together with the sink writes performed, or a panic (with the writes that
happened first). -/
inductive RunResult where
  | ret (e : Option Err) (outs : List Output)
  | panicked (outs : List Output)

/-- RedisHandler.Log from handlers.go: format the record with the
installed formatter, then issue PUBLISH channel bytes on the owned
connection and return its error unchanged (no retry, no reconnect).  A
nil formatter or a nil connection (possible only on a receiver that never
passed Init) makes the Go method call panic. -/
def RedisHandler.Log (env : Env) (p : RedisHandler) (r : Record) : RunResult :=
  match p.formatter with
  | none => .panicked []
  | some f =>
    let b := env.fmtBytes f r
    match p.conn with
    | none => .panicked []
    | some c => .ret (env.publish c p.Channel b) [.publishOut p.Channel b]

/-- The record filter of log15.MatchFilterHandler restricted to the
context pairs: the first pair carrying the key decides the match; a
record without the key does not pass. -/
def ctxMatch (key : String) (value : GoVal) : List (String × GoVal) → Bool
  | [] => false
  | (k, v) :: rest =>
    if k == key then GoVal.beq v value else ctxMatch key value rest

mutual
/-- Model of Handler.Log for the log15 collaborator objects the builder
instantiates (the codecs and transports themselves are external, so
formatting and writing go through the environment).  Modelling choices
for behaviour outside any claim: buffered delivers synchronously and
always returns nil (log15 buffers on a channel and returns nil); lazy and
sync are transparent in this sequential model; failover does not model
the failover context annotations log15 appends between attempts.  Logging
through a nil handler entry of a failover list panics, as any method call
on a nil Go interface does. -/
def runHandler (env : Env) : Handler → Record → RunResult
  | .buffered _ h, r =>
    match runHandler env h r with
    | .ret _ outs => .ret none outs
    | .panicked outs => .panicked outs
  | .callerFile h, r =>
    runHandler env h { r with ctx := r.ctx ++ [("caller", .str env.caller)] }
  | .callerFunc h, r =>
    runHandler env h { r with ctx := r.ctx ++ [("fn", .str env.caller)] }
  | .callerStack _ h, r =>
    runHandler env h { r with ctx := r.ctx ++ [("stack", .str env.caller)] }
  | .discard, _ => .ret none []
  | .failover hs, r => runFailover env hs r
  | .file path f, r =>
    let b := env.fmtBytes f r
    .ret (env.writeB (.fileW path) b) [.writeOut (.fileW path) b]
  | .lazy h, r => runHandler env h r
  | .lvlFilter maxLvl h, r =>
    if r.lvl.toNat ≤ maxLvl.toNat then runHandler env h r else .ret none []
  | .matchFilter key value h, r =>
    if ctxMatch key value r.ctx then runHandler env h r else .ret none []
  | .multi hs, r => runMulti env hs r
  | .net network address f, r =>
    let b := env.fmtBytes f r
    .ret (env.writeB (.netW network address) b)
      [.writeOut (.netW network address) b]
  | .stream w f, r =>
    let b := env.fmtBytes f r
    .ret (env.writeB w b) [.writeOut w b]
  | .sync h, r => runHandler env h r
  | .syslog tag f, r =>
    let b := env.fmtBytes f r
    .ret (env.writeB (.syslogW tag) b) [.writeOut (.syslogW tag) b]
  | .syslogNet network address tag f, r =>
    let b := env.fmtBytes f r
    .ret (env.writeB (.syslogNetW network address tag) b)
      [.writeOut (.syslogNetW network address tag) b]
  | .redisSink p, r => RedisHandler.Log env p r

/-- log15.MultiHandler: log to every child in order, discarding their
errors, and return nil; a panic in a child propagates. -/
def runMulti (env : Env) : HList → Record → RunResult
  | .nil, _ => .ret none []
  | .cons h rest, r =>
    match runHandler env h r with
    | .ret _ outs =>
      match runMulti env rest r with
      | .ret _ outs2 => .ret none (outs ++ outs2)
      | .panicked outs2 => .panicked (outs ++ outs2)
    | .panicked outs => .panicked outs

/-- log15.FailoverHandler: try each child in order, stopping at the first
nil error; if all fail, return the last error; calling Log on a nil
interface entry panics. -/
def runFailover (env : Env) : OHList → Record → RunResult
  | .nil, _ => .ret none []
  | .consNone _, _ => .panicked []
  | .consSome h rest, r =>
    match runHandler env h r with
    | .ret none outs => .ret none outs
    | .ret (some e) outs =>
      match rest with
      | .nil => .ret (some e) outs
      | _ =>
        match runFailover env rest r with
        | .ret e2 outs2 => .ret e2 (outs ++ outs2)
        | .panicked outs2 => .panicked (outs ++ outs2)
    | .panicked outs => .panicked outs
end

/-- The debug-severity write path of log15 as reached from this package
(log15.Debug routed to the active root handler): build a record at debug
severity with empty context and log it. -/
def Debug (env : Env) (root : Handler) (msg : String) : RunResult :=
  runHandler env root { lvl := Lvl.debug, msg := msg, ctx := [] }

/-- Printf from log.go: Debug(fmt.Sprintf(format, v...)).  No direct
write to any stream or file occurs; the only effect is the Debug call. -/
def Printf (env : Env) (root : Handler) (format : String) (v : List GoVal) :
    RunResult :=
  Debug env root (env.sprintf format v)

/-- Modelled from the spec: a format selector is valid when it resolves
to a string naming one of the four known encodings (data model, spec
section 3). -/
def specValidFormat : GoVal → Bool
  | .str "json" => true
  | .str "json_pretty" => true
  | .str "logfmt" => true
  | .str "terminal" => true
  | _ => false

/-- Modelled from the spec: a level string is acceptable when it maps to
the fixed ordered severity scale (spec sections 3 and 4.2 step 7); the
mapping is the one the library performs. -/
def specLvlOk (s : String) : Bool :=
  match lvlFromString s with
  | .ok _ => true
  | .error _ => false

/-- Modelled from the spec: every element of the variadic argument list
of multi and failover is itself a valid nested configuration. -/
def specValidLoop (vc : HandlerConf → Bool) : HandlerConf → Bool
  | .nil => true
  | .cons (.conf c) rest => vc c && specValidLoop vc rest
  | .cons _ _ => false

/-- Modelled from the spec: the validity invariant of spec section 3 - a
configuration is valid iff it is non-empty, its first element is a string
(vc stands for the recursive validity of nested configurations; the
recursion is tied below by specValidConf),
naming a kind of the vocabulary table, the positional argument count and
types match that kind exactly (stream names restricted to stdout, stderr
or the empty string; format selectors and level strings resolving as the
table requires), and every nested configuration is recursively valid. -/
def specValidBody (vc : HandlerConf → Bool) : HandlerConf → Bool
  | .cons (.str name) args =>
    match name with
    | "buffered" =>
      match args with
      | .cons (.int _) (.cons (.conf c) .nil) => vc c
      | _ => false
    | "caller_file" =>
      match args with
      | .cons (.conf c) .nil => vc c
      | _ => false
    | "caller_func" =>
      match args with
      | .cons (.conf c) .nil => vc c
      | _ => false
    | "caller_stack" =>
      match args with
      | .cons (.str _) (.cons (.conf c) .nil) => vc c
      | _ => false
    | "discard" =>
      match args with
      | .nil => true
      | _ => false
    | "failover" => specValidLoop vc args
    | "file" =>
      match args with
      | .cons (.str _) (.cons f .nil) => specValidFormat f
      | _ => false
    | "lazy" =>
      match args with
      | .cons (.conf c) .nil => vc c
      | _ => false
    | "level_filter" =>
      match args with
      | .cons (.str s) (.cons (.conf c) .nil) => specLvlOk s && vc c
      | _ => false
    | "match_filter" =>
      match args with
      | .cons (.str _) (.cons _ (.cons (.conf c) .nil)) => vc c
      | _ => false
    | "multi" => specValidLoop vc args
    | "net" =>
      match args with
      | .cons (.str _) (.cons (.str _) (.cons f .nil)) => specValidFormat f
      | _ => false
    | "stream" =>
      match args with
      | .cons (.str s) (.cons f .nil) =>
        (s == "stdout" || s == "stderr" || s == "") && specValidFormat f
      | _ => false
    | "sync" =>
      match args with
      | .cons (.conf c) .nil => vc c
      | _ => false
    | "syslog" =>
      match args with
      | .cons (.str _) (.cons f .nil) => specValidFormat f
      | _ => false
    | "syslog_net" =>
      match args with
      | .cons (.str _) (.cons (.str _) (.cons (.str _) (.cons f .nil))) =>
        specValidFormat f
      | _ => false
    | "redis" =>
      match args with
      | .cons (.str _) (.cons (.str _) .nil) => true
      | _ => false
    | _ => false
  | _ => false

/-- Iterated specValidBody with a step budget, the same proof device as
MakeHandlerF. -/
def specValidF : Nat → HandlerConf → Bool
  | 0, _ => false
  | n + 1, c => specValidBody (specValidF n) c

/-- Modelled from the spec: the validity invariant of spec section 3 as a
decidable predicate on configurations, obtained by running the body with
a sufficient step budget. -/
def specValidConf (c : HandlerConf) : Bool :=
  specValidF (HandlerConf.depth c + 1) c

end DCLog

/-- C3: MakeFormatter returns a formatter and no error exactly for the four
selector strings json, json_pretty, logfmt and terminal, mapped to the
compact JSON, indented colorized JSON, logfmt and terminal encodings; every
other string (the empty string included) and every non-string input yields
the generic configuration error and no formatter.  The function is a pure
mapping, so it has no side effects. -/
theorem C3_makeFormatter_exact :
    DCLog.MakeFormatter (.str "json") = .ok DCLog.Format.json ∧
    DCLog.MakeFormatter (.str "json_pretty") = .ok DCLog.Format.jsonPretty ∧
    DCLog.MakeFormatter (.str "logfmt") = .ok DCLog.Format.logfmt ∧
    DCLog.MakeFormatter (.str "terminal") = .ok DCLog.Format.terminal ∧
    (∀ s : String, s ≠ "json" → s ≠ "json_pretty" → s ≠ "logfmt" →
      s ≠ "terminal" → DCLog.MakeFormatter (.str s) = .error DCLog.BadConf) ∧
    (∀ v : DCLog.GoVal, (∀ s : String, v ≠ .str s) →
      DCLog.MakeFormatter v = .error DCLog.BadConf) := by
  refine ⟨rfl, rfl, rfl, rfl, ?_, ?_⟩
  · intro s h1 h2 h3 h4
    unfold DCLog.MakeFormatter
    split <;> rename_i h <;> simp_all
  · intro v hv
    cases v with
    | str s => exact absurd rfl (hv s)
    | int n => rfl
    | conf c => rfl
    | other t => rfl

/-- Witness for C3 at concrete inputs: the string logfmt is mapped, the
string bogus and a non-string value are rejected. -/
theorem C3_makeFormatter_exact_witness :
    DCLog.MakeFormatter (.str "bogus") = .error DCLog.BadConf ∧
    DCLog.MakeFormatter (.int 7) = .error DCLog.BadConf := by
  refine ⟨?_, ?_⟩
  · exact C3_makeFormatter_exact.2.2.2.2.1 "bogus"
      (by decide) (by decide) (by decide) (by decide)
  · exact C3_makeFormatter_exact.2.2.2.2.2 (.int 7) (by intro s h; cases h)

/-- Depth of a configuration cons cell, as an unfolding equation. -/
@[simp] theorem DCLog.HandlerConf.depth_cons (v : DCLog.GoVal) (rest : DCLog.HandlerConf) :
    DCLog.HandlerConf.depth (.cons v rest) =
      max (DCLog.GoVal.depth v + 1) (DCLog.HandlerConf.depth rest) := rfl

/-- Depth of the empty configuration. -/
@[simp] theorem DCLog.HandlerConf.depth_nil :
    DCLog.HandlerConf.depth .nil = 0 := rfl

/-- Depth of a nested-configuration value. -/
@[simp] theorem DCLog.GoVal.depth_conf (c : DCLog.HandlerConf) :
    DCLog.GoVal.depth (.conf c) = DCLog.HandlerConf.depth c := rfl

/-- Depth of a string value. -/
@[simp] theorem DCLog.GoVal.depth_str (s : String) :
    DCLog.GoVal.depth (.str s) = 0 := rfl

/-- Depth of an int value. -/
@[simp] theorem DCLog.GoVal.depth_int (n : Int) :
    DCLog.GoVal.depth (.int n) = 0 := rfl

/-- Depth of an opaque value. -/
@[simp] theorem DCLog.GoVal.depth_other (t : Nat) :
    DCLog.GoVal.depth (.other t) = 0 := rfl

/-- The variadic build loop only consults the recursive builder on
configurations strictly shallower than the argument list is deep. -/
theorem DCLog.MakeHandlerLoop_congr
    (mh1 mh2 : DCLog.HandlerConf → DCLog.BuildResult) :
    ∀ args : DCLog.HandlerConf,
    (∀ c : DCLog.HandlerConf,
      DCLog.HandlerConf.depth c < DCLog.HandlerConf.depth args → mh1 c = mh2 c) →
    DCLog.MakeHandlerLoop mh1 args = DCLog.MakeHandlerLoop mh2 args
  | .nil, _ => rfl
  | .cons (.conf hdata) rest, h => by
    have hrw : mh1 hdata = mh2 hdata := h hdata (by simp)
    have hrest := DCLog.MakeHandlerLoop_congr mh1 mh2 rest
      (fun c hc => h c (by simp; omega))
    show (match mh1 hdata with
          | DCLog.BuildResult.ok hh =>
            match DCLog.MakeHandlerLoop mh1 rest with
            | DCLog.ListResult.ok hs => DCLog.ListResult.ok (DCLog.HList.cons hh hs)
            | DCLog.ListResult.err e => DCLog.ListResult.err e
            | DCLog.ListResult.panicked => DCLog.ListResult.panicked
          | DCLog.BuildResult.err e => DCLog.ListResult.err e
          | DCLog.BuildResult.panicked => DCLog.ListResult.panicked) = _
    rw [hrw, hrest]
    rfl
  | .cons (.str s) rest, _ => rfl
  | .cons (.int n) rest, _ => rfl
  | .cons (.other t) rest, _ => rfl

/-- The builder body only consults the recursive builder on nested
configurations strictly shallower than the configuration itself, so two
recursive builders agreeing below that depth interpret it identically. -/
theorem DCLog.MakeHandlerBody_congr (env : DCLog.Env)
    (mh1 mh2 : DCLog.HandlerConf → DCLog.BuildResult)
    (conf : DCLog.HandlerConf)
    (h : ∀ c : DCLog.HandlerConf,
      DCLog.HandlerConf.depth c < DCLog.HandlerConf.depth conf → mh1 c = mh2 c) :
    DCLog.MakeHandlerBody env mh1 conf = DCLog.MakeHandlerBody env mh2 conf := by
  cases conf with
  | nil => rfl
  | cons c0 args =>
    cases c0 with
    | int n => rfl
    | conf c => rfl
    | other t => rfl
    | str name =>
      simp only [DCLog.MakeHandlerBody]
      split
      · -- buffered
        rcases args with _ | ⟨s1 | n1 | c1 | t1, _ | ⟨s2 | n2 | c2 | t2, _ | ⟨a3, r3⟩⟩⟩ <;>
          try rfl
        show (match mh1 c2 with
              | DCLog.BuildResult.ok hh =>
                DCLog.BuildResult.ok (DCLog.Handler.buffered n1 hh)
              | DCLog.BuildResult.err e => DCLog.BuildResult.err e
              | DCLog.BuildResult.panicked => DCLog.BuildResult.panicked) = _
        rw [h c2 (by simp <;> omega)]
      · -- caller_file
        rcases args with _ | ⟨s1 | n1 | c1 | t1, _ | ⟨a2, r2⟩⟩ <;> try rfl
        show (match mh1 c1 with
              | DCLog.BuildResult.ok hh =>
                DCLog.BuildResult.ok (DCLog.Handler.callerFile hh)
              | DCLog.BuildResult.err e => DCLog.BuildResult.err e
              | DCLog.BuildResult.panicked => DCLog.BuildResult.panicked) = _
        rw [h c1 (by simp <;> omega)]
      · -- caller_func
        rcases args with _ | ⟨s1 | n1 | c1 | t1, _ | ⟨a2, r2⟩⟩ <;> try rfl
        show (match mh1 c1 with
              | DCLog.BuildResult.ok hh =>
                DCLog.BuildResult.ok (DCLog.Handler.callerFunc hh)
              | DCLog.BuildResult.err e => DCLog.BuildResult.err e
              | DCLog.BuildResult.panicked => DCLog.BuildResult.panicked) = _
        rw [h c1 (by simp <;> omega)]
      · -- caller_stack
        rcases args with _ | ⟨s1 | n1 | c1 | t1, _ | ⟨s2 | n2 | c2 | t2, _ | ⟨a3, r3⟩⟩⟩ <;>
          try rfl
        show (match mh1 c2 with
              | DCLog.BuildResult.ok hh =>
                DCLog.BuildResult.ok (DCLog.Handler.callerStack s1 hh)
              | DCLog.BuildResult.err e => DCLog.BuildResult.err e
              | DCLog.BuildResult.panicked => DCLog.BuildResult.panicked) = _
        rw [h c2 (by simp <;> omega)]
      · -- discard
        rfl
      · -- failover
        rw [DCLog.MakeHandlerLoop_congr mh1 mh2 args
          (fun c hc => h c (by simp <;> omega))]
      · -- file
        rfl
      · -- lazy
        rcases args with _ | ⟨s1 | n1 | c1 | t1, _ | ⟨a2, r2⟩⟩ <;> try rfl
        show (match mh1 c1 with
              | DCLog.BuildResult.ok hh =>
                DCLog.BuildResult.ok (DCLog.Handler.lazy hh)
              | DCLog.BuildResult.err e => DCLog.BuildResult.err e
              | DCLog.BuildResult.panicked => DCLog.BuildResult.panicked) = _
        rw [h c1 (by simp <;> omega)]
      · -- level_filter
        rcases args with _ | ⟨s1 | n1 | c1 | t1, _ | ⟨s2 | n2 | c2 | t2, _ | ⟨a3, r3⟩⟩⟩ <;>
          try rfl
        show (match DCLog.lvlFromString s1 with
              | Except.ok lvl =>
                match mh1 c2 with
                | DCLog.BuildResult.ok hh =>
                  DCLog.BuildResult.ok (DCLog.Handler.lvlFilter lvl hh)
                | DCLog.BuildResult.err e => DCLog.BuildResult.err e
                | DCLog.BuildResult.panicked => DCLog.BuildResult.panicked
              | Except.error e => DCLog.BuildResult.err DCLog.BadConf) = _
        rw [h c2 (by simp <;> omega)]
      · -- match_filter
        rcases args with _ | ⟨s1 | n1 | c1 | t1, _ | ⟨a2,
            _ | ⟨s3 | n3 | c3 | t3, _ | ⟨a4, r4⟩⟩⟩⟩ <;> try rfl
        show (match mh1 c3 with
              | DCLog.BuildResult.ok hh =>
                DCLog.BuildResult.ok (DCLog.Handler.matchFilter s1 a2 hh)
              | DCLog.BuildResult.err e => DCLog.BuildResult.err e
              | DCLog.BuildResult.panicked => DCLog.BuildResult.panicked) = _
        rw [h c3 (by simp <;> omega)]
      · -- multi
        rw [DCLog.MakeHandlerLoop_congr mh1 mh2 args
          (fun c hc => h c (by simp <;> omega))]
      · -- net
        rfl
      · -- stream
        rfl
      · -- sync
        rcases args with _ | ⟨s1 | n1 | c1 | t1, _ | ⟨a2, r2⟩⟩ <;> try rfl
        show (match mh1 c1 with
              | DCLog.BuildResult.ok hh =>
                DCLog.BuildResult.ok (DCLog.Handler.sync hh)
              | DCLog.BuildResult.err e => DCLog.BuildResult.err e
              | DCLog.BuildResult.panicked => DCLog.BuildResult.panicked) = _
        rw [h c1 (by simp <;> omega)]
      · -- syslog
        rfl
      · -- syslog_net
        rfl
      · -- redis
        rfl
      · -- unknown kind
        rfl

/-- Step-budget irrelevance: any budget exceeding the configuration depth
gives the same interpretation, so the budget in MakeHandler is invisible. -/
theorem DCLog.mhF_irrel (env : DCLog.Env) :
    ∀ n m : Nat, ∀ conf : DCLog.HandlerConf,
      DCLog.HandlerConf.depth conf < n → DCLog.HandlerConf.depth conf < m →
      DCLog.MakeHandlerF env n conf = DCLog.MakeHandlerF env m conf := by
  intro n
  induction n with
  | zero => intro m conf hn _; omega
  | succ n ih =>
    intro m conf hn hm
    cases m with
    | zero => omega
    | succ m' =>
      show DCLog.MakeHandlerBody env (DCLog.MakeHandlerF env n) conf =
        DCLog.MakeHandlerBody env (DCLog.MakeHandlerF env m') conf
      exact DCLog.MakeHandlerBody_congr env _ _ conf
        (fun c hc => ih m' c (by omega) (by omega))

/-- The defining equation of MakeHandler: one unfolding of the Go function
body, with MakeHandler itself interpreting nested configurations. -/
theorem DCLog.MakeHandler_unfold (env : DCLog.Env) (conf : DCLog.HandlerConf) :
    DCLog.MakeHandler env conf =
      DCLog.MakeHandlerBody env (DCLog.MakeHandler env) conf := by
  show DCLog.MakeHandlerBody env
    (DCLog.MakeHandlerF env (DCLog.HandlerConf.depth conf)) conf = _
  exact DCLog.MakeHandlerBody_congr env _ _ conf
    (fun c hc => DCLog.mhF_irrel env _ _ c hc (by omega))

/-- The validity of a variadic argument list only consults the recursive
validity of configurations strictly shallower than the list is deep. -/
theorem DCLog.specValidLoop_congr (vc1 vc2 : DCLog.HandlerConf → Bool) :
    ∀ args : DCLog.HandlerConf,
    (∀ c : DCLog.HandlerConf,
      DCLog.HandlerConf.depth c < DCLog.HandlerConf.depth args → vc1 c = vc2 c) →
    DCLog.specValidLoop vc1 args = DCLog.specValidLoop vc2 args
  | .nil, _ => rfl
  | .cons (.conf hdata) rest, h => by
    have hrw : vc1 hdata = vc2 hdata := h hdata (by simp)
    have hrest := DCLog.specValidLoop_congr vc1 vc2 rest
      (fun c hc => h c (by simp; omega))
    show (vc1 hdata && DCLog.specValidLoop vc1 rest) = _
    rw [hrw, hrest]
    rfl
  | .cons (.str s) rest, _ => rfl
  | .cons (.int n) rest, _ => rfl
  | .cons (.other t) rest, _ => rfl

/-- The spec validity body only consults the recursive validity on nested
configurations strictly shallower than the configuration itself. -/
theorem DCLog.specValidBody_congr (vc1 vc2 : DCLog.HandlerConf → Bool)
    (conf : DCLog.HandlerConf)
    (h : ∀ c : DCLog.HandlerConf,
      DCLog.HandlerConf.depth c < DCLog.HandlerConf.depth conf → vc1 c = vc2 c) :
    DCLog.specValidBody vc1 conf = DCLog.specValidBody vc2 conf := by
  cases conf with
  | nil => rfl
  | cons c0 args =>
    cases c0 with
    | int n => rfl
    | conf c => rfl
    | other t => rfl
    | str name =>
      simp only [DCLog.specValidBody]
      split
      · -- buffered
        rcases args with _ | ⟨s1 | n1 | c1 | t1, _ | ⟨s2 | n2 | c2 | t2, _ | ⟨a3, r3⟩⟩⟩ <;>
          try rfl
        show vc1 c2 = _
        rw [h c2 (by simp <;> omega)]
      · -- caller_file
        rcases args with _ | ⟨s1 | n1 | c1 | t1, _ | ⟨a2, r2⟩⟩ <;> try rfl
        show vc1 c1 = _
        rw [h c1 (by simp <;> omega)]
      · -- caller_func
        rcases args with _ | ⟨s1 | n1 | c1 | t1, _ | ⟨a2, r2⟩⟩ <;> try rfl
        show vc1 c1 = _
        rw [h c1 (by simp <;> omega)]
      · -- caller_stack
        rcases args with _ | ⟨s1 | n1 | c1 | t1, _ | ⟨s2 | n2 | c2 | t2, _ | ⟨a3, r3⟩⟩⟩ <;>
          try rfl
        show vc1 c2 = _
        rw [h c2 (by simp <;> omega)]
      · -- discard
        rfl
      · -- failover
        exact DCLog.specValidLoop_congr vc1 vc2 args
          (fun c hc => h c (by simp <;> omega))
      · -- file
        rfl
      · -- lazy
        rcases args with _ | ⟨s1 | n1 | c1 | t1, _ | ⟨a2, r2⟩⟩ <;> try rfl
        show vc1 c1 = _
        rw [h c1 (by simp <;> omega)]
      · -- level_filter
        rcases args with _ | ⟨s1 | n1 | c1 | t1, _ | ⟨s2 | n2 | c2 | t2, _ | ⟨a3, r3⟩⟩⟩ <;>
          try rfl
        show (DCLog.specLvlOk s1 && vc1 c2) = _
        rw [h c2 (by simp <;> omega)]
      · -- match_filter
        rcases args with _ | ⟨s1 | n1 | c1 | t1, _ | ⟨a2,
            _ | ⟨s3 | n3 | c3 | t3, _ | ⟨a4, r4⟩⟩⟩⟩ <;> try rfl
        show vc1 c3 = _
        rw [h c3 (by simp <;> omega)]
      · -- multi
        exact DCLog.specValidLoop_congr vc1 vc2 args
          (fun c hc => h c (by simp <;> omega))
      · -- net
        rfl
      · -- stream
        rfl
      · -- sync
        rcases args with _ | ⟨s1 | n1 | c1 | t1, _ | ⟨a2, r2⟩⟩ <;> try rfl
        show vc1 c1 = _
        rw [h c1 (by simp <;> omega)]
      · -- syslog
        rfl
      · -- syslog_net
        rfl
      · -- redis
        rfl
      · -- unknown kind
        rfl

/-- Step-budget irrelevance for the validity predicate. -/
theorem DCLog.svF_irrel :
    ∀ n m : Nat, ∀ conf : DCLog.HandlerConf,
      DCLog.HandlerConf.depth conf < n → DCLog.HandlerConf.depth conf < m →
      DCLog.specValidF n conf = DCLog.specValidF m conf := by
  intro n
  induction n with
  | zero => intro m conf hn _; omega
  | succ n ih =>
    intro m conf hn hm
    cases m with
    | zero => omega
    | succ m' =>
      show DCLog.specValidBody (DCLog.specValidF n) conf =
        DCLog.specValidBody (DCLog.specValidF m') conf
      exact DCLog.specValidBody_congr _ _ conf
        (fun c hc => ih m' c (by omega) (by omega))

/-- The defining equation of the spec validity predicate. -/
theorem DCLog.specValidConf_unfold (conf : DCLog.HandlerConf) :
    DCLog.specValidConf conf =
      DCLog.specValidBody DCLog.specValidConf conf := by
  show DCLog.specValidBody
    (DCLog.specValidF (DCLog.HandlerConf.depth conf)) conf = _
  exact DCLog.specValidBody_congr _ _ conf
    (fun c hc => DCLog.svF_irrel _ _ c hc (by omega))

/-- A format selector the spec deems valid is exactly one MakeFormatter
accepts. -/
theorem DCLog.specValidFormat_makeFormatter (f : DCLog.GoVal)
    (h : DCLog.specValidFormat f = true) :
    ∃ fm : DCLog.Format, DCLog.MakeFormatter f = .ok fm := by
  unfold DCLog.specValidFormat at h
  split at h <;> first | exact ⟨_, rfl⟩ | nomatch h

/-- MakeFormatter succeeds only on selectors the spec deems valid. -/
theorem DCLog.makeFormatter_ok_specValidFormat (f : DCLog.GoVal)
    (fm : DCLog.Format) (h : DCLog.MakeFormatter f = .ok fm) :
    DCLog.specValidFormat f = true := by
  unfold DCLog.MakeFormatter at h
  split at h
  · split at h <;> first | rfl | nomatch h
  · nomatch h

/-- A level string the spec deems acceptable is exactly one the library
parses. -/
theorem DCLog.specLvlOk_lvlFromString (s : String)
    (h : DCLog.specLvlOk s = true) :
    ∃ lvl : DCLog.Lvl, DCLog.lvlFromString s = .ok lvl := by
  unfold DCLog.specLvlOk at h
  split at h
  · exact ⟨_, by assumption⟩
  · nomatch h

/-- The library parses a level string only when the spec deems it
acceptable. -/
theorem DCLog.lvlFromString_ok_specLvlOk (s : String) (lvl : DCLog.Lvl)
    (h : DCLog.lvlFromString s = .ok lvl) : DCLog.specLvlOk s = true := by
  unfold DCLog.specLvlOk
  rw [h]

/-- The stream-name selection of the stream case succeeds exactly on the
three names the spec lists. -/
theorem DCLog.streamName_some (s : String) (w : DCLog.Writer)
    (h : DCLog.streamWriter s = some w) :
    (s == "stdout" || s == "stderr" || s == "") = true := by
  unfold DCLog.streamWriter at h
  split at h <;> simp_all

/-- A spec-valid stream name makes the selection succeed. -/
theorem DCLog.streamName_valid_some (s : String)
    (h : (s == "stdout" || s == "stderr" || s == "") = true) :
    ∃ w : DCLog.Writer, DCLog.streamWriter s = some w := by
  simp only [Bool.or_eq_true, beq_iff_eq] at h
  rcases h with (h1 | h1) | h1 <;> subst h1 <;> exact ⟨_, rfl⟩

/-- Elimination for an impossible boolean equation. -/
theorem DCLog.bfalse_elim {C : Prop} (h : (false : Bool) = true) : C :=
  Bool.noConfusion h

/-- Left component of a true boolean conjunction. -/
theorem DCLog.band_true_left {a b : Bool} (h : (a && b) = true) : a = true := by
  cases a
  · exact DCLog.bfalse_elim h
  · rfl

/-- Right component of a true boolean conjunction. -/
theorem DCLog.band_true_right {a b : Bool} (h : (a && b) = true) : b = true := by
  cases a
  · exact DCLog.bfalse_elim h
  · exact h

/-- If every configuration below a depth bound builds (in the environment
where externals succeed) whenever the spec deems it valid, then a valid
variadic argument list within that bound builds as a whole. -/
theorem DCLog.loopValidOk (n : Nat)
    (hP : ∀ conf : DCLog.HandlerConf, DCLog.HandlerConf.depth conf < n →
      DCLog.specValidConf conf = true →
      ∃ h : DCLog.Handler, DCLog.MakeHandler DCLog.okEnv conf = .ok h) :
    ∀ args : DCLog.HandlerConf, DCLog.HandlerConf.depth args ≤ n →
      DCLog.specValidLoop DCLog.specValidConf args = true →
      ∃ hs : DCLog.HList,
        DCLog.MakeHandlerLoop (DCLog.MakeHandler DCLog.okEnv) args = .ok hs
  | .nil, _, _ => ⟨.nil, rfl⟩
  | .cons (.conf hdata) rest, hd, hv => by
    have hv0 : (DCLog.specValidConf hdata &&
        DCLog.specValidLoop DCLog.specValidConf rest) = true := hv
    obtain ⟨h1, hh1⟩ := hP hdata (by simp at hd; omega)
      (DCLog.band_true_left hv0)
    obtain ⟨hs, hhs⟩ := DCLog.loopValidOk n hP rest (by simp at hd; omega)
      (DCLog.band_true_right hv0)
    refine ⟨DCLog.HList.cons h1 hs, ?_⟩
    show (match DCLog.MakeHandler DCLog.okEnv hdata with
          | DCLog.BuildResult.ok hh =>
            match DCLog.MakeHandlerLoop (DCLog.MakeHandler DCLog.okEnv) rest with
            | DCLog.ListResult.ok hs2 => DCLog.ListResult.ok (DCLog.HList.cons hh hs2)
            | DCLog.ListResult.err e => DCLog.ListResult.err e
            | DCLog.ListResult.panicked => DCLog.ListResult.panicked
          | DCLog.BuildResult.err e => DCLog.ListResult.err e
          | DCLog.BuildResult.panicked => DCLog.ListResult.panicked) = _
    rw [hh1, hhs]
  | .cons (.str s) rest, _, hv => DCLog.bfalse_elim hv
  | .cons (.int k) rest, _, hv => DCLog.bfalse_elim hv
  | .cons (.other t) rest, _, hv => DCLog.bfalse_elim hv

/-- Every configuration the spec deems valid builds successfully in the
environment where all external acquisitions succeed (stated below any
depth bound; the unbounded claim instantiates the bound). -/
theorem DCLog.mh_valid_ok :
    ∀ n : Nat, ∀ conf : DCLog.HandlerConf, DCLog.HandlerConf.depth conf < n →
      DCLog.specValidConf conf = true →
      ∃ h : DCLog.Handler, DCLog.MakeHandler DCLog.okEnv conf = .ok h := by
  intro n
  induction n with
  | zero => intro conf h; omega
  | succ n ih =>
    intro conf hd hv
    rw [DCLog.specValidConf_unfold] at hv
    rw [DCLog.MakeHandler_unfold]
    cases conf with
    | nil => exact DCLog.bfalse_elim hv
    | cons c0 args =>
      cases c0 with
      | int k => exact DCLog.bfalse_elim hv
      | conf c => exact DCLog.bfalse_elim hv
      | other t => exact DCLog.bfalse_elim hv
      | str name =>
        simp only [DCLog.specValidBody] at hv
        split at hv
        · -- buffered
          rcases args with _ | ⟨s1 | n1 | c1 | t1, _ | ⟨s2 | n2 | c2 | t2, _ | ⟨a3, r3⟩⟩⟩ <;>
            try exact DCLog.bfalse_elim hv
          obtain ⟨h2, hh2⟩ := ih c2 (by simp at hd; omega) hv
          refine ⟨DCLog.Handler.buffered n1 h2, ?_⟩
          show (match DCLog.MakeHandler DCLog.okEnv c2 with
                | DCLog.BuildResult.ok hh =>
                  DCLog.BuildResult.ok (DCLog.Handler.buffered n1 hh)
                | DCLog.BuildResult.err e => DCLog.BuildResult.err e
                | DCLog.BuildResult.panicked => DCLog.BuildResult.panicked) = _
          rw [hh2]
        · -- caller_file
          rcases args with _ | ⟨s1 | n1 | c1 | t1, _ | ⟨a2, r2⟩⟩ <;>
            try exact DCLog.bfalse_elim hv
          obtain ⟨h2, hh2⟩ := ih c1 (by simp at hd; omega) hv
          refine ⟨DCLog.Handler.callerFile h2, ?_⟩
          show (match DCLog.MakeHandler DCLog.okEnv c1 with
                | DCLog.BuildResult.ok hh =>
                  DCLog.BuildResult.ok (DCLog.Handler.callerFile hh)
                | DCLog.BuildResult.err e => DCLog.BuildResult.err e
                | DCLog.BuildResult.panicked => DCLog.BuildResult.panicked) = _
          rw [hh2]
        · -- caller_func
          rcases args with _ | ⟨s1 | n1 | c1 | t1, _ | ⟨a2, r2⟩⟩ <;>
            try exact DCLog.bfalse_elim hv
          obtain ⟨h2, hh2⟩ := ih c1 (by simp at hd; omega) hv
          refine ⟨DCLog.Handler.callerFunc h2, ?_⟩
          show (match DCLog.MakeHandler DCLog.okEnv c1 with
                | DCLog.BuildResult.ok hh =>
                  DCLog.BuildResult.ok (DCLog.Handler.callerFunc hh)
                | DCLog.BuildResult.err e => DCLog.BuildResult.err e
                | DCLog.BuildResult.panicked => DCLog.BuildResult.panicked) = _
          rw [hh2]
        · -- caller_stack
          rcases args with _ | ⟨s1 | n1 | c1 | t1, _ | ⟨s2 | n2 | c2 | t2, _ | ⟨a3, r3⟩⟩⟩ <;>
            try exact DCLog.bfalse_elim hv
          obtain ⟨h2, hh2⟩ := ih c2 (by simp at hd; omega) hv
          refine ⟨DCLog.Handler.callerStack s1 h2, ?_⟩
          show (match DCLog.MakeHandler DCLog.okEnv c2 with
                | DCLog.BuildResult.ok hh =>
                  DCLog.BuildResult.ok (DCLog.Handler.callerStack s1 hh)
                | DCLog.BuildResult.err e => DCLog.BuildResult.err e
                | DCLog.BuildResult.panicked => DCLog.BuildResult.panicked) = _
          rw [hh2]
        · -- discard
          rcases args with _ | ⟨a1, r1⟩ <;> try exact DCLog.bfalse_elim hv
          exact ⟨DCLog.Handler.discard, rfl⟩
        · -- failover
          obtain ⟨hs, hhs⟩ := DCLog.loopValidOk n ih args (by simp at hd; omega) hv
          refine ⟨DCLog.Handler.failover (DCLog.OHList.append
            (DCLog.OHList.replicateNone (DCLog.HandlerConf.length args))
            (DCLog.HList.toOptList hs)), ?_⟩
          show (match DCLog.MakeHandlerLoop (DCLog.MakeHandler DCLog.okEnv) args with
                | DCLog.ListResult.ok hs2 =>
                  DCLog.BuildResult.ok (DCLog.Handler.failover (DCLog.OHList.append
                    (DCLog.OHList.replicateNone (DCLog.HandlerConf.length args))
                    (DCLog.HList.toOptList hs2)))
                | DCLog.ListResult.err e => DCLog.BuildResult.err e
                | DCLog.ListResult.panicked => DCLog.BuildResult.panicked) = _
          rw [hhs]
        · -- file
          rcases args with _ | ⟨s1 | n1 | c1 | t1, _ | ⟨a2, _ | ⟨a3, r3⟩⟩⟩ <;>
            try exact DCLog.bfalse_elim hv
          obtain ⟨fm, hfm⟩ := DCLog.specValidFormat_makeFormatter a2 hv
          refine ⟨DCLog.Handler.file s1 fm, ?_⟩
          show (match DCLog.MakeFormatter a2 with
                | Except.ok fm2 =>
                  match DCLog.okEnv.fileOpen s1 with
                  | none => DCLog.BuildResult.ok (DCLog.Handler.file s1 fm2)
                  | some e => DCLog.BuildResult.err e
                | Except.error e => DCLog.BuildResult.err e) = _
          rw [hfm]
          rfl
        · -- lazy
          rcases args with _ | ⟨s1 | n1 | c1 | t1, _ | ⟨a2, r2⟩⟩ <;>
            try exact DCLog.bfalse_elim hv
          obtain ⟨h2, hh2⟩ := ih c1 (by simp at hd; omega) hv
          refine ⟨DCLog.Handler.lazy h2, ?_⟩
          show (match DCLog.MakeHandler DCLog.okEnv c1 with
                | DCLog.BuildResult.ok hh =>
                  DCLog.BuildResult.ok (DCLog.Handler.lazy hh)
                | DCLog.BuildResult.err e => DCLog.BuildResult.err e
                | DCLog.BuildResult.panicked => DCLog.BuildResult.panicked) = _
          rw [hh2]
        · -- level_filter
          rcases args with _ | ⟨s1 | n1 | c1 | t1, _ | ⟨s2 | n2 | c2 | t2, _ | ⟨a3, r3⟩⟩⟩ <;>
            try exact DCLog.bfalse_elim hv
          have hv0 : (DCLog.specLvlOk s1 && DCLog.specValidConf c2) = true := hv
          obtain ⟨lvl, hlvl⟩ := DCLog.specLvlOk_lvlFromString s1
            (DCLog.band_true_left hv0)
          obtain ⟨h2, hh2⟩ := ih c2 (by simp at hd; omega)
            (DCLog.band_true_right hv0)
          refine ⟨DCLog.Handler.lvlFilter lvl h2, ?_⟩
          show (match DCLog.lvlFromString s1 with
                | Except.ok lvl2 =>
                  match DCLog.MakeHandler DCLog.okEnv c2 with
                  | DCLog.BuildResult.ok hh =>
                    DCLog.BuildResult.ok (DCLog.Handler.lvlFilter lvl2 hh)
                  | DCLog.BuildResult.err e => DCLog.BuildResult.err e
                  | DCLog.BuildResult.panicked => DCLog.BuildResult.panicked
                | Except.error e => DCLog.BuildResult.err DCLog.BadConf) = _
          rw [hlvl, hh2]
        · -- match_filter
          rcases args with _ | ⟨s1 | n1 | c1 | t1, _ | ⟨a2,
              _ | ⟨s3 | n3 | c3 | t3, _ | ⟨a4, r4⟩⟩⟩⟩ <;>
            try exact DCLog.bfalse_elim hv
          obtain ⟨h2, hh2⟩ := ih c3 (by simp at hd; omega) hv
          refine ⟨DCLog.Handler.matchFilter s1 a2 h2, ?_⟩
          show (match DCLog.MakeHandler DCLog.okEnv c3 with
                | DCLog.BuildResult.ok hh =>
                  DCLog.BuildResult.ok (DCLog.Handler.matchFilter s1 a2 hh)
                | DCLog.BuildResult.err e => DCLog.BuildResult.err e
                | DCLog.BuildResult.panicked => DCLog.BuildResult.panicked) = _
          rw [hh2]
        · -- multi
          obtain ⟨hs, hhs⟩ := DCLog.loopValidOk n ih args (by simp at hd; omega) hv
          refine ⟨DCLog.Handler.multi hs, ?_⟩
          show (match DCLog.MakeHandlerLoop (DCLog.MakeHandler DCLog.okEnv) args with
                | DCLog.ListResult.ok hs2 =>
                  DCLog.BuildResult.ok (DCLog.Handler.multi hs2)
                | DCLog.ListResult.err e => DCLog.BuildResult.err e
                | DCLog.ListResult.panicked => DCLog.BuildResult.panicked) = _
          rw [hhs]
        · -- net
          rcases args with _ | ⟨s1 | n1 | c1 | t1, _ | ⟨s2 | n2 | c2 | t2,
              _ | ⟨a3, _ | ⟨a4, r4⟩⟩⟩⟩ <;>
            try exact DCLog.bfalse_elim hv
          obtain ⟨fm, hfm⟩ := DCLog.specValidFormat_makeFormatter a3 hv
          refine ⟨DCLog.Handler.net s1 s2 fm, ?_⟩
          show (match DCLog.MakeFormatter a3 with
                | Except.ok fm2 =>
                  match DCLog.okEnv.netDial s1 s2 with
                  | none => DCLog.BuildResult.ok (DCLog.Handler.net s1 s2 fm2)
                  | some e => DCLog.BuildResult.err e
                | Except.error e => DCLog.BuildResult.err e) = _
          rw [hfm]
          rfl
        · -- stream
          rcases args with _ | ⟨s1 | n1 | c1 | t1, _ | ⟨a2, _ | ⟨a3, r3⟩⟩⟩ <;>
            try exact DCLog.bfalse_elim hv
          have hv0 : ((s1 == "stdout" || s1 == "stderr" || s1 == "") &&
              DCLog.specValidFormat a2) = true := hv
          obtain ⟨w, hw⟩ := DCLog.streamName_valid_some s1
            (DCLog.band_true_left hv0)
          obtain ⟨fm, hfm⟩ := DCLog.specValidFormat_makeFormatter a2
            (DCLog.band_true_right hv0)
          refine ⟨DCLog.Handler.stream w fm, ?_⟩
          show (match DCLog.streamWriter s1 with
                | some w2 =>
                  match DCLog.MakeFormatter a2 with
                  | Except.ok fm2 =>
                    DCLog.BuildResult.ok (DCLog.Handler.stream w2 fm2)
                  | Except.error e => DCLog.BuildResult.err e
                | none => DCLog.BuildResult.err DCLog.BadConf) = _
          rw [hw, hfm]
        · -- sync
          rcases args with _ | ⟨s1 | n1 | c1 | t1, _ | ⟨a2, r2⟩⟩ <;>
            try exact DCLog.bfalse_elim hv
          obtain ⟨h2, hh2⟩ := ih c1 (by simp at hd; omega) hv
          refine ⟨DCLog.Handler.sync h2, ?_⟩
          show (match DCLog.MakeHandler DCLog.okEnv c1 with
                | DCLog.BuildResult.ok hh =>
                  DCLog.BuildResult.ok (DCLog.Handler.sync hh)
                | DCLog.BuildResult.err e => DCLog.BuildResult.err e
                | DCLog.BuildResult.panicked => DCLog.BuildResult.panicked) = _
          rw [hh2]
        · -- syslog
          rcases args with _ | ⟨s1 | n1 | c1 | t1, _ | ⟨a2, _ | ⟨a3, r3⟩⟩⟩ <;>
            try exact DCLog.bfalse_elim hv
          obtain ⟨fm, hfm⟩ := DCLog.specValidFormat_makeFormatter a2 hv
          refine ⟨DCLog.Handler.syslog s1 fm, ?_⟩
          show (match DCLog.MakeFormatter a2 with
                | Except.ok fm2 =>
                  match DCLog.okEnv.syslogOpen s1 with
                  | none => DCLog.BuildResult.ok (DCLog.Handler.syslog s1 fm2)
                  | some e => DCLog.BuildResult.err e
                | Except.error e => DCLog.BuildResult.err e) = _
          rw [hfm]
          rfl
        · -- syslog_net
          rcases args with _ | ⟨s1 | n1 | c1 | t1, _ | ⟨s2 | n2 | c2 | t2,
              _ | ⟨s3 | n3 | c3 | t3, _ | ⟨a4, _ | ⟨a5, r5⟩⟩⟩⟩⟩ <;>
            try exact DCLog.bfalse_elim hv
          obtain ⟨fm, hfm⟩ := DCLog.specValidFormat_makeFormatter a4 hv
          refine ⟨DCLog.Handler.syslogNet s1 s2 s3 fm, ?_⟩
          show (match DCLog.MakeFormatter a4 with
                | Except.ok fm2 =>
                  match DCLog.okEnv.syslogNetOpen s1 s2 s3 with
                  | none =>
                    DCLog.BuildResult.ok (DCLog.Handler.syslogNet s1 s2 s3 fm2)
                  | some e => DCLog.BuildResult.err e
                | Except.error e => DCLog.BuildResult.err e) = _
          rw [hfm]
          rfl
        · -- redis
          rcases args with _ | ⟨s1 | n1 | c1 | t1, _ | ⟨s2 | n2 | c2 | t2,
              _ | ⟨a3, r3⟩⟩⟩ <;>
            try exact DCLog.bfalse_elim hv
          exact ⟨_, rfl⟩
        · -- unknown kind
          exact DCLog.bfalse_elim hv

/-- If every configuration below a depth bound is spec-valid whenever it
builds, then a variadic argument list within that bound that builds as a
whole is elementwise spec-valid. -/
theorem DCLog.loopOkValid (n : Nat)
    (hP : ∀ conf : DCLog.HandlerConf, DCLog.HandlerConf.depth conf < n →
      ∀ env : DCLog.Env, ∀ h : DCLog.Handler,
        DCLog.MakeHandler env conf = .ok h → DCLog.specValidConf conf = true) :
    ∀ args : DCLog.HandlerConf, DCLog.HandlerConf.depth args ≤ n →
      ∀ env : DCLog.Env, ∀ hs : DCLog.HList,
        DCLog.MakeHandlerLoop (DCLog.MakeHandler env) args = .ok hs →
        DCLog.specValidLoop DCLog.specValidConf args = true
  | .nil, _, _, _, _ => rfl
  | .cons (.conf hdata) rest, hd, env, hs, hok => by
    have hok2 : (match DCLog.MakeHandler env hdata with
          | DCLog.BuildResult.ok hh =>
            match DCLog.MakeHandlerLoop (DCLog.MakeHandler env) rest with
            | DCLog.ListResult.ok hs2 => DCLog.ListResult.ok (DCLog.HList.cons hh hs2)
            | DCLog.ListResult.err e => DCLog.ListResult.err e
            | DCLog.ListResult.panicked => DCLog.ListResult.panicked
          | DCLog.BuildResult.err e => DCLog.ListResult.err e
          | DCLog.BuildResult.panicked => DCLog.ListResult.panicked) =
        DCLog.ListResult.ok hs := hok
    cases hm : DCLog.MakeHandler env hdata with
    | ok h1 =>
      rw [hm] at hok2
      cases hl : DCLog.MakeHandlerLoop (DCLog.MakeHandler env) rest with
      | ok hs2 =>
        show (DCLog.specValidConf hdata &&
          DCLog.specValidLoop DCLog.specValidConf rest) = true
        rw [hP hdata (by simp at hd; omega) env h1 hm,
          DCLog.loopOkValid n hP rest (by simp at hd; omega) env hs2 hl]
        rfl
      | err e => rw [hl] at hok2; exact DCLog.ListResult.noConfusion hok2
      | panicked => rw [hl] at hok2; exact DCLog.ListResult.noConfusion hok2
    | err e => rw [hm] at hok2; exact DCLog.ListResult.noConfusion hok2
    | panicked => rw [hm] at hok2; exact DCLog.ListResult.noConfusion hok2
  | .cons (.str s) rest, _, env, hs, hok => DCLog.ListResult.noConfusion hok
  | .cons (.int k) rest, _, env, hs, hok => DCLog.ListResult.noConfusion hok
  | .cons (.other t) rest, _, env, hs, hok => DCLog.ListResult.noConfusion hok

/-- MakeHandler returns a handler, in any environment, only on
configurations the spec deems valid (stated below any depth bound). -/
theorem DCLog.mh_ok_valid :
    ∀ n : Nat, ∀ conf : DCLog.HandlerConf, DCLog.HandlerConf.depth conf < n →
      ∀ env : DCLog.Env, ∀ h : DCLog.Handler,
        DCLog.MakeHandler env conf = .ok h →
        DCLog.specValidConf conf = true := by
  intro n
  induction n with
  | zero => intro conf h; omega
  | succ n ih =>
    intro conf hd env h hok
    rw [DCLog.MakeHandler_unfold] at hok
    rw [DCLog.specValidConf_unfold]
    cases conf with
    | nil => exact DCLog.BuildResult.noConfusion hok
    | cons c0 args =>
      cases c0 with
      | int k => exact DCLog.BuildResult.noConfusion hok
      | conf c => exact DCLog.BuildResult.noConfusion hok
      | other t => exact DCLog.BuildResult.noConfusion hok
      | str name =>
        simp only [DCLog.MakeHandlerBody] at hok
        split at hok
        · -- buffered
          rcases args with _ | ⟨s1 | n1 | c1 | t1, _ | ⟨s2 | n2 | c2 | t2, _ | ⟨a3, r3⟩⟩⟩ <;>
            try exact DCLog.BuildResult.noConfusion hok
          have hok2 : (match DCLog.MakeHandler env c2 with
                | DCLog.BuildResult.ok hh =>
                  DCLog.BuildResult.ok (DCLog.Handler.buffered n1 hh)
                | DCLog.BuildResult.err e => DCLog.BuildResult.err e
                | DCLog.BuildResult.panicked => DCLog.BuildResult.panicked) =
              DCLog.BuildResult.ok h := hok
          cases hm : DCLog.MakeHandler env c2 with
          | ok h2 =>
            show DCLog.specValidConf c2 = true
            exact ih c2 (by simp at hd; omega) env h2 hm
          | err e => rw [hm] at hok2; exact DCLog.BuildResult.noConfusion hok2
          | panicked => rw [hm] at hok2; exact DCLog.BuildResult.noConfusion hok2
        · -- caller_file
          rcases args with _ | ⟨s1 | n1 | c1 | t1, _ | ⟨a2, r2⟩⟩ <;>
            try exact DCLog.BuildResult.noConfusion hok
          have hok2 : (match DCLog.MakeHandler env c1 with
                | DCLog.BuildResult.ok hh =>
                  DCLog.BuildResult.ok (DCLog.Handler.callerFile hh)
                | DCLog.BuildResult.err e => DCLog.BuildResult.err e
                | DCLog.BuildResult.panicked => DCLog.BuildResult.panicked) =
              DCLog.BuildResult.ok h := hok
          cases hm : DCLog.MakeHandler env c1 with
          | ok h2 =>
            show DCLog.specValidConf c1 = true
            exact ih c1 (by simp at hd; omega) env h2 hm
          | err e => rw [hm] at hok2; exact DCLog.BuildResult.noConfusion hok2
          | panicked => rw [hm] at hok2; exact DCLog.BuildResult.noConfusion hok2
        · -- caller_func
          rcases args with _ | ⟨s1 | n1 | c1 | t1, _ | ⟨a2, r2⟩⟩ <;>
            try exact DCLog.BuildResult.noConfusion hok
          have hok2 : (match DCLog.MakeHandler env c1 with
                | DCLog.BuildResult.ok hh =>
                  DCLog.BuildResult.ok (DCLog.Handler.callerFunc hh)
                | DCLog.BuildResult.err e => DCLog.BuildResult.err e
                | DCLog.BuildResult.panicked => DCLog.BuildResult.panicked) =
              DCLog.BuildResult.ok h := hok
          cases hm : DCLog.MakeHandler env c1 with
          | ok h2 =>
            show DCLog.specValidConf c1 = true
            exact ih c1 (by simp at hd; omega) env h2 hm
          | err e => rw [hm] at hok2; exact DCLog.BuildResult.noConfusion hok2
          | panicked => rw [hm] at hok2; exact DCLog.BuildResult.noConfusion hok2
        · -- caller_stack
          rcases args with _ | ⟨s1 | n1 | c1 | t1, _ | ⟨s2 | n2 | c2 | t2, _ | ⟨a3, r3⟩⟩⟩ <;>
            try exact DCLog.BuildResult.noConfusion hok
          have hok2 : (match DCLog.MakeHandler env c2 with
                | DCLog.BuildResult.ok hh =>
                  DCLog.BuildResult.ok (DCLog.Handler.callerStack s1 hh)
                | DCLog.BuildResult.err e => DCLog.BuildResult.err e
                | DCLog.BuildResult.panicked => DCLog.BuildResult.panicked) =
              DCLog.BuildResult.ok h := hok
          cases hm : DCLog.MakeHandler env c2 with
          | ok h2 =>
            show DCLog.specValidConf c2 = true
            exact ih c2 (by simp at hd; omega) env h2 hm
          | err e => rw [hm] at hok2; exact DCLog.BuildResult.noConfusion hok2
          | panicked => rw [hm] at hok2; exact DCLog.BuildResult.noConfusion hok2
        · -- discard
          rcases args with _ | ⟨a1, r1⟩ <;>
            first | rfl | exact DCLog.BuildResult.noConfusion hok
        · -- failover
          cases hl : DCLog.MakeHandlerLoop (DCLog.MakeHandler env) args with
          | ok hs2 =>
            show DCLog.specValidLoop DCLog.specValidConf args = true
            exact DCLog.loopOkValid n ih args (by simp at hd; omega) env hs2 hl
          | err e => rw [hl] at hok; exact DCLog.BuildResult.noConfusion hok
          | panicked => rw [hl] at hok; exact DCLog.BuildResult.noConfusion hok
        · -- file
          rcases args with _ | ⟨s1 | n1 | c1 | t1, _ | ⟨a2, _ | ⟨a3, r3⟩⟩⟩ <;>
            try exact DCLog.BuildResult.noConfusion hok
          have hok2 : (match DCLog.MakeFormatter a2 with
                | Except.ok fm2 =>
                  match env.fileOpen s1 with
                  | none => DCLog.BuildResult.ok (DCLog.Handler.file s1 fm2)
                  | some e => DCLog.BuildResult.err e
                | Except.error e => DCLog.BuildResult.err e) =
              DCLog.BuildResult.ok h := hok
          cases hmf : DCLog.MakeFormatter a2 with
          | ok fm =>
            show DCLog.specValidFormat a2 = true
            exact DCLog.makeFormatter_ok_specValidFormat a2 fm hmf
          | error e => rw [hmf] at hok2; exact DCLog.BuildResult.noConfusion hok2
        · -- lazy
          rcases args with _ | ⟨s1 | n1 | c1 | t1, _ | ⟨a2, r2⟩⟩ <;>
            try exact DCLog.BuildResult.noConfusion hok
          have hok2 : (match DCLog.MakeHandler env c1 with
                | DCLog.BuildResult.ok hh =>
                  DCLog.BuildResult.ok (DCLog.Handler.lazy hh)
                | DCLog.BuildResult.err e => DCLog.BuildResult.err e
                | DCLog.BuildResult.panicked => DCLog.BuildResult.panicked) =
              DCLog.BuildResult.ok h := hok
          cases hm : DCLog.MakeHandler env c1 with
          | ok h2 =>
            show DCLog.specValidConf c1 = true
            exact ih c1 (by simp at hd; omega) env h2 hm
          | err e => rw [hm] at hok2; exact DCLog.BuildResult.noConfusion hok2
          | panicked => rw [hm] at hok2; exact DCLog.BuildResult.noConfusion hok2
        · -- level_filter
          rcases args with _ | ⟨s1 | n1 | c1 | t1, _ | ⟨s2 | n2 | c2 | t2, _ | ⟨a3, r3⟩⟩⟩ <;>
            try exact DCLog.BuildResult.noConfusion hok
          · have hok2 : (match DCLog.lvlFromString s1 with
                  | Except.ok lvl => DCLog.BuildResult.err DCLog.BadConf
                  | Except.error e => DCLog.BuildResult.err DCLog.BadConf) =
                DCLog.BuildResult.ok h := hok
            cases hls : DCLog.lvlFromString s1 <;> rw [hls] at hok2 <;>
              exact DCLog.BuildResult.noConfusion hok2
          · have hok2 : (match DCLog.lvlFromString s1 with
                  | Except.ok lvl => DCLog.BuildResult.err DCLog.BadConf
                  | Except.error e => DCLog.BuildResult.err DCLog.BadConf) =
                DCLog.BuildResult.ok h := hok
            cases hls : DCLog.lvlFromString s1 <;> rw [hls] at hok2 <;>
              exact DCLog.BuildResult.noConfusion hok2
          · have hok2 : (match DCLog.lvlFromString s1 with
                  | Except.ok lvl =>
                    match DCLog.MakeHandler env c2 with
                    | DCLog.BuildResult.ok hh =>
                      DCLog.BuildResult.ok (DCLog.Handler.lvlFilter lvl hh)
                    | DCLog.BuildResult.err e => DCLog.BuildResult.err e
                    | DCLog.BuildResult.panicked => DCLog.BuildResult.panicked
                  | Except.error e => DCLog.BuildResult.err DCLog.BadConf) =
                DCLog.BuildResult.ok h := hok
            cases hls : DCLog.lvlFromString s1 with
            | error e => rw [hls] at hok2; exact DCLog.BuildResult.noConfusion hok2
            | ok lvl =>
              rw [hls] at hok2
              have hok3 : (match DCLog.MakeHandler env c2 with
                    | DCLog.BuildResult.ok hh =>
                      DCLog.BuildResult.ok (DCLog.Handler.lvlFilter lvl hh)
                    | DCLog.BuildResult.err e => DCLog.BuildResult.err e
                    | DCLog.BuildResult.panicked => DCLog.BuildResult.panicked) =
                  DCLog.BuildResult.ok h := hok2
              cases hm : DCLog.MakeHandler env c2 with
              | ok h2 =>
                show (DCLog.specLvlOk s1 && DCLog.specValidConf c2) = true
                rw [DCLog.lvlFromString_ok_specLvlOk s1 lvl hls,
                  ih c2 (by simp at hd; omega) env h2 hm]
                rfl
              | err e => rw [hm] at hok3; exact DCLog.BuildResult.noConfusion hok3
              | panicked => rw [hm] at hok3; exact DCLog.BuildResult.noConfusion hok3
          · have hok2 : (match DCLog.lvlFromString s1 with
                  | Except.ok lvl => DCLog.BuildResult.err DCLog.BadConf
                  | Except.error e => DCLog.BuildResult.err DCLog.BadConf) =
                DCLog.BuildResult.ok h := hok
            cases hls : DCLog.lvlFromString s1 <;> rw [hls] at hok2 <;>
              exact DCLog.BuildResult.noConfusion hok2
        · -- match_filter
          rcases args with _ | ⟨s1 | n1 | c1 | t1, _ | ⟨a2,
              _ | ⟨s3 | n3 | c3 | t3, _ | ⟨a4, r4⟩⟩⟩⟩ <;>
            try exact DCLog.BuildResult.noConfusion hok
          have hok2 : (match DCLog.MakeHandler env c3 with
                | DCLog.BuildResult.ok hh =>
                  DCLog.BuildResult.ok (DCLog.Handler.matchFilter s1 a2 hh)
                | DCLog.BuildResult.err e => DCLog.BuildResult.err e
                | DCLog.BuildResult.panicked => DCLog.BuildResult.panicked) =
              DCLog.BuildResult.ok h := hok
          cases hm : DCLog.MakeHandler env c3 with
          | ok h2 =>
            show DCLog.specValidConf c3 = true
            exact ih c3 (by simp at hd; omega) env h2 hm
          | err e => rw [hm] at hok2; exact DCLog.BuildResult.noConfusion hok2
          | panicked => rw [hm] at hok2; exact DCLog.BuildResult.noConfusion hok2
        · -- multi
          cases hl : DCLog.MakeHandlerLoop (DCLog.MakeHandler env) args with
          | ok hs2 =>
            show DCLog.specValidLoop DCLog.specValidConf args = true
            exact DCLog.loopOkValid n ih args (by simp at hd; omega) env hs2 hl
          | err e => rw [hl] at hok; exact DCLog.BuildResult.noConfusion hok
          | panicked => rw [hl] at hok; exact DCLog.BuildResult.noConfusion hok
        · -- net
          rcases args with _ | ⟨s1 | n1 | c1 | t1, _ | ⟨s2 | n2 | c2 | t2,
              _ | ⟨a3, _ | ⟨a4, r4⟩⟩⟩⟩ <;>
            try exact DCLog.BuildResult.noConfusion hok
          have hok2 : (match DCLog.MakeFormatter a3 with
                | Except.ok fm2 =>
                  match env.netDial s1 s2 with
                  | none => DCLog.BuildResult.ok (DCLog.Handler.net s1 s2 fm2)
                  | some e => DCLog.BuildResult.err e
                | Except.error e => DCLog.BuildResult.err e) =
              DCLog.BuildResult.ok h := hok
          cases hmf : DCLog.MakeFormatter a3 with
          | ok fm =>
            show DCLog.specValidFormat a3 = true
            exact DCLog.makeFormatter_ok_specValidFormat a3 fm hmf
          | error e => rw [hmf] at hok2; exact DCLog.BuildResult.noConfusion hok2
        · -- stream
          rcases args with _ | ⟨s1 | n1 | c1 | t1, _ | ⟨a2, _ | ⟨a3, r3⟩⟩⟩ <;>
            try exact DCLog.BuildResult.noConfusion hok
          have hok2 : (match DCLog.streamWriter s1 with
                | some w =>
                  match DCLog.MakeFormatter a2 with
                  | Except.ok fm2 =>
                    DCLog.BuildResult.ok (DCLog.Handler.stream w fm2)
                  | Except.error e => DCLog.BuildResult.err e
                | none => DCLog.BuildResult.err DCLog.BadConf) =
              DCLog.BuildResult.ok h := hok
          cases hw : DCLog.streamWriter s1 with
          | none => rw [hw] at hok2; exact DCLog.BuildResult.noConfusion hok2
          | some w =>
            rw [hw] at hok2
            cases hmf : DCLog.MakeFormatter a2 with
            | ok fm =>
              show ((s1 == "stdout" || s1 == "stderr" || s1 == "") &&
                DCLog.specValidFormat a2) = true
              rw [DCLog.streamName_some s1 w hw,
                DCLog.makeFormatter_ok_specValidFormat a2 fm hmf]
              rfl
            | error e => rw [hmf] at hok2; exact DCLog.BuildResult.noConfusion hok2
        · -- sync
          rcases args with _ | ⟨s1 | n1 | c1 | t1, _ | ⟨a2, r2⟩⟩ <;>
            try exact DCLog.BuildResult.noConfusion hok
          have hok2 : (match DCLog.MakeHandler env c1 with
                | DCLog.BuildResult.ok hh =>
                  DCLog.BuildResult.ok (DCLog.Handler.sync hh)
                | DCLog.BuildResult.err e => DCLog.BuildResult.err e
                | DCLog.BuildResult.panicked => DCLog.BuildResult.panicked) =
              DCLog.BuildResult.ok h := hok
          cases hm : DCLog.MakeHandler env c1 with
          | ok h2 =>
            show DCLog.specValidConf c1 = true
            exact ih c1 (by simp at hd; omega) env h2 hm
          | err e => rw [hm] at hok2; exact DCLog.BuildResult.noConfusion hok2
          | panicked => rw [hm] at hok2; exact DCLog.BuildResult.noConfusion hok2
        · -- syslog
          rcases args with _ | ⟨s1 | n1 | c1 | t1, _ | ⟨a2, _ | ⟨a3, r3⟩⟩⟩ <;>
            try exact DCLog.BuildResult.noConfusion hok
          have hok2 : (match DCLog.MakeFormatter a2 with
                | Except.ok fm2 =>
                  match env.syslogOpen s1 with
                  | none => DCLog.BuildResult.ok (DCLog.Handler.syslog s1 fm2)
                  | some e => DCLog.BuildResult.err e
                | Except.error e => DCLog.BuildResult.err e) =
              DCLog.BuildResult.ok h := hok
          cases hmf : DCLog.MakeFormatter a2 with
          | ok fm =>
            show DCLog.specValidFormat a2 = true
            exact DCLog.makeFormatter_ok_specValidFormat a2 fm hmf
          | error e => rw [hmf] at hok2; exact DCLog.BuildResult.noConfusion hok2
        · -- syslog_net
          rcases args with _ | ⟨s1 | n1 | c1 | t1, _ | ⟨s2 | n2 | c2 | t2,
              _ | ⟨s3 | n3 | c3 | t3, _ | ⟨a4, _ | ⟨a5, r5⟩⟩⟩⟩⟩ <;>
            try exact DCLog.BuildResult.noConfusion hok
          have hok2 : (match DCLog.MakeFormatter a4 with
                | Except.ok fm2 =>
                  match env.syslogNetOpen s1 s2 s3 with
                  | none =>
                    DCLog.BuildResult.ok (DCLog.Handler.syslogNet s1 s2 s3 fm2)
                  | some e => DCLog.BuildResult.err e
                | Except.error e => DCLog.BuildResult.err e) =
              DCLog.BuildResult.ok h := hok
          cases hmf : DCLog.MakeFormatter a4 with
          | ok fm =>
            show DCLog.specValidFormat a4 = true
            exact DCLog.makeFormatter_ok_specValidFormat a4 fm hmf
          | error e => rw [hmf] at hok2; exact DCLog.BuildResult.noConfusion hok2
        · -- redis
          rcases args with _ | ⟨s1 | n1 | c1 | t1, _ | ⟨s2 | n2 | c2 | t2,
              _ | ⟨a3, r3⟩⟩⟩ <;>
            first | rfl | exact DCLog.BuildResult.noConfusion hok
        · -- unknown kind
          exact DCLog.BuildResult.noConfusion hok

/-- Helper: the only error lvlFromString can produce is its own external
parse error, never the generic configuration error. -/
theorem DCLog.lvlFromString_error_shape (s : String) (e : DCLog.Err)
    (he : DCLog.lvlFromString s = .error e) :
    e = DCLog.Err.external "log15" ("Unknown level: " ++ s) := by
  unfold DCLog.lvlFromString at he
  split at he <;>
    first
      | rfl
      | (exact Except.noConfusion he)
      | (injection he with h2; exact h2.symm)

/-- C1 counterexample: a configuration whose first element is not a string
violates the section 3 invariant, yet MakeHandler does not return an error
and no handler - the unchecked type assertion conf[0].(string) makes it
panic. -/
theorem C1_invalid_conf_panics :
    DCLog.specValidConf (.cons (.int 0) .nil) = false ∧
    DCLog.MakeHandler DCLog.okEnv (.cons (.int 0) .nil) = .panicked :=
  ⟨rfl, rfl⟩

/-- C1 (amended): in the environment where every external acquisition
succeeds, MakeHandler returns a handler and no error on every
configuration satisfying the section 3 invariant; on every configuration
violating it, in every environment, it never returns a handler - it
returns an error and no handler, or panics.  An empty sequence, a wrong
argument count and a wrongly typed checked argument yield the generic
configuration error, while a non-string first element and a
non-configuration element in the variadic argument lists of multi and
failover make the unchecked assertions panic instead of returning. -/
theorem C1_builder_classification (conf : DCLog.HandlerConf) :
    (DCLog.specValidConf conf = true →
      ∃ h : DCLog.Handler, DCLog.MakeHandler DCLog.okEnv conf = .ok h) ∧
    (∀ env : DCLog.Env, DCLog.specValidConf conf = false →
      (∃ e : DCLog.Err, DCLog.MakeHandler env conf = .err e) ∨
        DCLog.MakeHandler env conf = .panicked) ∧
    DCLog.MakeHandler DCLog.okEnv .nil = .err DCLog.BadConf ∧
    DCLog.MakeHandler DCLog.okEnv
      (.cons (.str "discard") (.cons (.str "x") .nil)) = .err DCLog.BadConf ∧
    DCLog.MakeHandler DCLog.okEnv
      (.cons (.str "buffered") (.cons (.str "5")
        (.cons (.conf (.cons (.str "discard") .nil)) .nil))) = .err DCLog.BadConf ∧
    DCLog.MakeHandler DCLog.okEnv (.cons (.int 7) .nil) = .panicked ∧
    DCLog.MakeHandler DCLog.okEnv
      (.cons (.str "multi") (.cons (.int 3) .nil)) = .panicked ∧
    DCLog.MakeHandler DCLog.okEnv
      (.cons (.str "failover") (.cons (.str "oops") .nil)) = .panicked := by
  refine ⟨?_, ?_, rfl, rfl, rfl, rfl, rfl, rfl⟩
  · intro hv
    exact DCLog.mh_valid_ok (DCLog.HandlerConf.depth conf + 1) conf
      (Nat.lt_succ_self _) hv
  · intro env hinv
    cases hres : DCLog.MakeHandler env conf with
    | ok h =>
      have := DCLog.mh_ok_valid (DCLog.HandlerConf.depth conf + 1) conf
        (Nat.lt_succ_self _) env h hres
      rw [hinv] at this
      exact DCLog.bfalse_elim this
    | err e => exact Or.inl ⟨e, rfl⟩
    | panicked => exact Or.inr rfl

/-- Witness for C1 at concrete configurations: a valid flat configuration
builds, and an invalid one (missing arguments) is rejected without a
handler. -/
theorem C1_builder_classification_witness :
    (∃ h : DCLog.Handler, DCLog.MakeHandler DCLog.okEnv
      (.cons (.str "discard") .nil) = .ok h) ∧
    ((∃ e : DCLog.Err, DCLog.MakeHandler DCLog.okEnv
        (.cons (.str "file") .nil) = .err e) ∨
      DCLog.MakeHandler DCLog.okEnv (.cons (.str "file") .nil) = .panicked) := by
  constructor
  · exact (C1_builder_classification (.cons (.str "discard") .nil)).1 rfl
  · exact (C1_builder_classification (.cons (.str "file") .nil)).2.1 DCLog.okEnv rfl

/-- C2: the failover case appends the successfully built child handlers
to a slice that make([]log15.Handler, len(args)) already filled with nil
interface values, so the combinator receives a nil entry in front of the
one built discard handler - not exactly the built handlers in
configuration order - and logging through it panics on the nil entry
instead of trying each child in order. -/
theorem C2_failover_prepends_nil :
    DCLog.MakeHandler DCLog.okEnv (.cons (.str "failover")
      (.cons (.conf (.cons (.str "discard") .nil)) .nil)) =
      .ok (.failover (.consNone (.consSome .discard .nil))) ∧
    DCLog.runHandler DCLog.okEnv
      (.failover (.consNone (.consSome .discard .nil)))
      { lvl := .debug, msg := "m", ctx := [] } = .panicked [] :=
  ⟨rfl, rfl⟩

/-- C9: a one-element configuration holding only the kind string multi,
and likewise only failover, is accepted: the variadic kinds build from an
empty list of nested configurations and return a handler with no error,
whatever the environment. -/
theorem C9_variadic_empty_ok (env : DCLog.Env) :
    DCLog.MakeHandler env (.cons (.str "multi") .nil) = .ok (.multi .nil) ∧
    DCLog.MakeHandler env (.cons (.str "failover") .nil) = .ok (.failover .nil) :=
  ⟨rfl, rfl⟩

/-- C4: in a two-argument stream configuration the stream name selects
the stream - stdout selects standard output, stderr and the empty string
both select standard error - and with a recognized format selector the
built handler is the stream handler over the selected stream; any other
stream name yields the generic configuration error (before the format
selector is even considered). -/
theorem C4_stream_selection (env : DCLog.Env) (f : DCLog.GoVal)
    (fm : DCLog.Format) :
    (DCLog.MakeFormatter f = .ok fm →
      DCLog.MakeHandler env (.cons (.str "stream")
          (.cons (.str "stdout") (.cons f .nil))) =
        .ok (.stream .stdout fm) ∧
      DCLog.MakeHandler env (.cons (.str "stream")
          (.cons (.str "stderr") (.cons f .nil))) =
        .ok (.stream .stderr fm) ∧
      DCLog.MakeHandler env (.cons (.str "stream")
          (.cons (.str "") (.cons f .nil))) =
        .ok (.stream .stderr fm)) ∧
    (∀ s : String, s ≠ "stdout" → s ≠ "stderr" → s ≠ "" →
      DCLog.MakeHandler env (.cons (.str "stream")
          (.cons (.str s) (.cons f .nil))) = .err DCLog.BadConf) := by
  constructor
  · intro hf
    refine ⟨?_, ?_, ?_⟩ <;>
      · rw [DCLog.MakeHandler_unfold]
        show (match DCLog.MakeFormatter f with
              | Except.ok fm2 => DCLog.BuildResult.ok (DCLog.Handler.stream _ fm2)
              | Except.error e => DCLog.BuildResult.err e) = _
        rw [hf]
  · intro s h1 h2 h3
    rw [DCLog.MakeHandler_unfold]
    have hw : DCLog.streamWriter s = none := by
      unfold DCLog.streamWriter
      split <;> simp_all
    show (match DCLog.streamWriter s with
          | some w =>
            match DCLog.MakeFormatter f with
            | Except.ok fm2 => DCLog.BuildResult.ok (DCLog.Handler.stream w fm2)
            | Except.error e => DCLog.BuildResult.err e
          | none => DCLog.BuildResult.err DCLog.BadConf) = _
    rw [hw]

/-- Witness for C4: a concrete selection on the empty stream name and a
concrete rejection of a misspelled one. -/
theorem C4_stream_selection_witness :
    DCLog.MakeHandler DCLog.okEnv (.cons (.str "stream")
        (.cons (.str "") (.cons (.str "logfmt") .nil))) =
      .ok (.stream .stderr .logfmt) ∧
    DCLog.MakeHandler DCLog.okEnv (.cons (.str "stream")
        (.cons (.str "sdtout") (.cons (.str "json") .nil))) =
      .err DCLog.BadConf := by
  constructor
  · exact ((C4_stream_selection DCLog.okEnv (.str "logfmt") .logfmt).1 rfl).2.2
  · exact (C4_stream_selection DCLog.okEnv (.str "json") .json).2 "sdtout"
      (by decide) (by decide) (by decide)

/-- C5: in a two-argument level_filter configuration, a level string the
library cannot parse makes MakeHandler return the generic configuration
error BadConf - not the distinct parse error the library produced - and a
parseable one whose nested configuration builds yields the level filter
at that severity wrapping the built inner handler. -/
theorem C5_level_filter_parse (env : DCLog.Env) (s : String) (a : DCLog.GoVal) :
    (∀ e : DCLog.Err, DCLog.lvlFromString s = .error e →
      DCLog.MakeHandler env (.cons (.str "level_filter")
        (.cons (.str s) (.cons a .nil))) = .err DCLog.BadConf ∧
      e ≠ DCLog.BadConf) ∧
    (∀ lvl : DCLog.Lvl, ∀ c : DCLog.HandlerConf, ∀ h : DCLog.Handler,
      DCLog.lvlFromString s = .ok lvl → a = .conf c →
      DCLog.MakeHandler env c = .ok h →
      DCLog.MakeHandler env (.cons (.str "level_filter")
        (.cons (.str s) (.cons a .nil))) = .ok (.lvlFilter lvl h)) := by
  constructor
  · intro e he
    constructor
    · rw [DCLog.MakeHandler_unfold]
      cases a with
      | str s2 =>
        show (match DCLog.lvlFromString s with
              | Except.ok lvl => DCLog.BuildResult.err DCLog.BadConf
              | Except.error e2 => DCLog.BuildResult.err DCLog.BadConf) = _
        rw [he]
      | int k =>
        show (match DCLog.lvlFromString s with
              | Except.ok lvl => DCLog.BuildResult.err DCLog.BadConf
              | Except.error e2 => DCLog.BuildResult.err DCLog.BadConf) = _
        rw [he]
      | other t =>
        show (match DCLog.lvlFromString s with
              | Except.ok lvl => DCLog.BuildResult.err DCLog.BadConf
              | Except.error e2 => DCLog.BuildResult.err DCLog.BadConf) = _
        rw [he]
      | conf c =>
        show (match DCLog.lvlFromString s with
              | Except.ok lvl =>
                match DCLog.MakeHandler env c with
                | DCLog.BuildResult.ok hh =>
                  DCLog.BuildResult.ok (DCLog.Handler.lvlFilter lvl hh)
                | DCLog.BuildResult.err e2 => DCLog.BuildResult.err e2
                | DCLog.BuildResult.panicked => DCLog.BuildResult.panicked
              | Except.error e2 => DCLog.BuildResult.err DCLog.BadConf) = _
        rw [he]
    · rw [DCLog.lvlFromString_error_shape s e he]
      intro hco
      exact DCLog.Err.noConfusion hco
  · intro lvl c h hls ha hmc
    subst ha
    rw [DCLog.MakeHandler_unfold]
    show (match DCLog.lvlFromString s with
          | Except.ok lvl2 =>
            match DCLog.MakeHandler env c with
            | DCLog.BuildResult.ok hh =>
              DCLog.BuildResult.ok (DCLog.Handler.lvlFilter lvl2 hh)
            | DCLog.BuildResult.err e2 => DCLog.BuildResult.err e2
            | DCLog.BuildResult.panicked => DCLog.BuildResult.panicked
          | Except.error e2 => DCLog.BuildResult.err DCLog.BadConf) = _
    rw [hls, hmc]

/-- Witness for C5: the unknown level verbose yields BadConf (and the
parse error itself differs from BadConf), while warn over a discard sink
builds the filter. -/
theorem C5_level_filter_parse_witness :
    (DCLog.MakeHandler DCLog.okEnv (.cons (.str "level_filter")
        (.cons (.str "verbose")
          (.cons (.conf (.cons (.str "discard") .nil)) .nil))) =
      .err DCLog.BadConf ∧
      DCLog.Err.external "log15" "Unknown level: verbose" ≠ DCLog.BadConf) ∧
    DCLog.MakeHandler DCLog.okEnv (.cons (.str "level_filter")
        (.cons (.str "warn")
          (.cons (.conf (.cons (.str "discard") .nil)) .nil))) =
      .ok (.lvlFilter .warn .discard) := by
  constructor
  · exact (C5_level_filter_parse DCLog.okEnv "verbose"
      (.conf (.cons (.str "discard") .nil))).1 _ rfl
  · exact (C5_level_filter_parse DCLog.okEnv "warn"
      (.conf (.cons (.str "discard") .nil))).2 .warn
      (.cons (.str "discard") .nil) .discard rfl rfl rfl

/-- Characterization of RedisHandler.Init: the formatter is installed
unconditionally and the connection reflects the dial result. -/
theorem DCLog.RedisHandler.Init_eq (env : DCLog.Env) (p : DCLog.RedisHandler) :
    DCLog.RedisHandler.Init env p =
      (match env.redisDial p.Loc with
       | none =>
         ({ p with
            formatter := some DCLog.Format.json,
            conn := some { loc := p.Loc } }, none)
       | some e =>
         ({ p with
            formatter := some DCLog.Format.json,
            conn := none }, some e)) := rfl

/-- C6: a two-string redis configuration dials the target at build time;
a failing dial aborts construction and the underlying transport error is
returned exactly as the dial produced it (not the generic configuration
error, not wrapped), with no handler; a successful dial returns the redis
sink, holding the fresh connection and the fixed JSON formatter, wrapped
in the serializing sync combinator. -/
theorem C6_redis_eager_dial (env : DCLog.Env) (loc ch : String) :
    (∀ e : DCLog.Err, env.redisDial loc = some e →
      DCLog.MakeHandler env (.cons (.str "redis")
        (.cons (.str loc) (.cons (.str ch) .nil))) = .err e) ∧
    (env.redisDial loc = none →
      DCLog.MakeHandler env (.cons (.str "redis")
          (.cons (.str loc) (.cons (.str ch) .nil))) =
        .ok (.sync (.redisSink
          { Loc := loc, Channel := ch,
            conn := some { loc := loc }, formatter := some .json }))) := by
  constructor
  · intro e he
    rw [DCLog.MakeHandler_unfold]
    show (match DCLog.RedisHandler.Init env
          { Loc := loc, Channel := ch, conn := none, formatter := none } with
        | (redis_h, none) =>
          DCLog.BuildResult.ok (DCLog.Handler.sync (DCLog.Handler.redisSink redis_h))
        | (_, some e2) => DCLog.BuildResult.err e2) = _
    rw [DCLog.RedisHandler.Init_eq, he]
  · intro he
    rw [DCLog.MakeHandler_unfold]
    show (match DCLog.RedisHandler.Init env
          { Loc := loc, Channel := ch, conn := none, formatter := none } with
        | (redis_h, none) =>
          DCLog.BuildResult.ok (DCLog.Handler.sync (DCLog.Handler.redisSink redis_h))
        | (_, some e2) => DCLog.BuildResult.err e2) = _
    rw [DCLog.RedisHandler.Init_eq, he]

/-- Witness for C6: an unreachable address fails construction with the
transport error itself; a reachable one builds the sync-wrapped sink. -/
theorem C6_redis_eager_dial_witness :
    DCLog.MakeHandler
      { DCLog.okEnv with
        redisDial := fun _ => some (DCLog.Err.external "redis" "connection refused") }
      (.cons (.str "redis") (.cons (.str "10.0.0.1:6379")
        (.cons (.str "logs") .nil))) =
      .err (DCLog.Err.external "redis" "connection refused") ∧
    DCLog.MakeHandler DCLog.okEnv
      (.cons (.str "redis") (.cons (.str "10.0.0.1:6379")
        (.cons (.str "logs") .nil))) =
      .ok (.sync (.redisSink
        { Loc := "10.0.0.1:6379", Channel := "logs",
          conn := some { loc := "10.0.0.1:6379" }, formatter := some .json })) := by
  constructor
  · exact (C6_redis_eager_dial
      { DCLog.okEnv with
        redisDial := fun _ => some (DCLog.Err.external "redis" "connection refused") }
      "10.0.0.1:6379" "logs").1 _ rfl
  · exact (C6_redis_eager_dial DCLog.okEnv "10.0.0.1:6379" "logs").2 rfl

/-- C7: the redis sink formats with compact JSON no matter what the
caller intended - Init installs the JSON formatter unconditionally, even
on a receiver carrying a different formatter - and after a successful
Init every Log call publishes to the configured channel exactly the
JSON-formatted bytes, returning the publish error unchanged, with a
single publish command (no retry, no reconnect). -/
theorem C7_redis_log_always_json (env : DCLog.Env) (p : DCLog.RedisHandler)
    (r : DCLog.Record) :
    ((DCLog.RedisHandler.Init env p).1.formatter = some DCLog.Format.json) ∧
    (env.redisDial p.Loc = none →
      DCLog.RedisHandler.Log env (DCLog.RedisHandler.Init env p).1 r =
        .ret (env.publish { loc := p.Loc } p.Channel
            (env.fmtBytes DCLog.Format.json r))
          [.publishOut p.Channel (env.fmtBytes DCLog.Format.json r)]) := by
  constructor
  · rw [DCLog.RedisHandler.Init_eq]
    cases env.redisDial p.Loc <;> rfl
  · intro he
    rw [DCLog.RedisHandler.Init_eq, he]
    rfl

/-- Witness for C7 at a concrete receiver that carries a terminal
formatter the caller might have intended: Init overrides it with JSON and
Log publishes the JSON bytes to the channel. -/
theorem C7_redis_log_always_json_witness :
    (DCLog.RedisHandler.Init DCLog.okEnv
      { Loc := "a:6379", Channel := "ch", conn := none,
        formatter := some DCLog.Format.terminal }).1.formatter =
      some DCLog.Format.json ∧
    DCLog.RedisHandler.Log DCLog.okEnv
      (DCLog.RedisHandler.Init DCLog.okEnv
        { Loc := "a:6379", Channel := "ch", conn := none,
          formatter := some DCLog.Format.terminal }).1
      { lvl := .info, msg := "m", ctx := [] } =
      .ret none [.publishOut "ch" "bytes"] := by
  constructor
  · exact (C7_redis_log_always_json DCLog.okEnv
      { Loc := "a:6379", Channel := "ch", conn := none,
        formatter := some DCLog.Format.terminal }
      { lvl := .info, msg := "m", ctx := [] }).1
  · exact (C7_redis_log_always_json DCLog.okEnv
      { Loc := "a:6379", Channel := "ch", conn := none,
        formatter := some DCLog.Format.terminal }
      { lvl := .info, msg := "m", ctx := [] }).2 rfl

/-- C8: MakeBasicHandler builds exactly the configuration
level_filter(level, caller_file(multi(fileConf, streamConf))) and hands
it to MakeHandler, where fileConf is the JSON file sink at the path when
the path is non-empty and the discard sink otherwise, and streamConf is
the discard sink when quiet, else the standard-error stream sink whose
format is terminal when standard output is an interactive terminal and
json otherwise. -/
theorem C8_basic_handler_conf (env : DCLog.Env) (isTerm : Bool)
    (fpath lvl : String) (quiet : Bool) :
    DCLog.MakeBasicHandler env isTerm fpath lvl quiet =
      DCLog.MakeHandler env (.cons (.str "level_filter") (.cons (.str lvl) (.cons
        (.conf (.cons (.str "caller_file") (.cons (.conf (.cons (.str "multi") (.cons
          (.conf (if fpath = "" then .cons (.str "discard") .nil
            else .cons (.str "file") (.cons (.str fpath)
              (.cons (.str "json") .nil))))
          (.cons (.conf (if quiet then .cons (.str "discard") .nil
            else if isTerm then
              .cons (.str "stream") (.cons (.str "stderr")
                (.cons (.str "terminal") .nil))
            else
              .cons (.str "stream") (.cons (.str "stderr")
                (.cons (.str "json") .nil))))
            .nil)))) .nil))) .nil))) := by
  unfold DCLog.MakeBasicHandler
  by_cases hf : fpath = "" <;> cases quiet <;> cases isTerm <;> simp [hf]

/-- C10: Printf emits the fmt.Sprintf-formatted message as a
debug-severity record with empty context through the active handler, and
nothing else - there is no direct write to standard output - so under a
level filter at any severity stricter than debug (crit, error, warn or
info) a Printf call produces no output and no error at all. -/
theorem C10_printf_debug_filtered (env : DCLog.Env) (root : DCLog.Handler)
    (format : String) (v : List DCLog.GoVal) :
    DCLog.Printf env root format v =
      DCLog.runHandler env root
        { lvl := DCLog.Lvl.debug, msg := env.sprintf format v, ctx := [] } ∧
    (∀ h : DCLog.Handler,
      DCLog.Printf env (.lvlFilter DCLog.Lvl.crit h) format v = .ret none [] ∧
      DCLog.Printf env (.lvlFilter DCLog.Lvl.error h) format v = .ret none [] ∧
      DCLog.Printf env (.lvlFilter DCLog.Lvl.warn h) format v = .ret none [] ∧
      DCLog.Printf env (.lvlFilter DCLog.Lvl.info h) format v = .ret none []) :=
  ⟨rfl, fun _ => ⟨rfl, rfl, rfl, rfl⟩⟩
